import Mathlib

set_option linter.unusedVariables false

/-!
Verification of the mem0-mcp repository (a Python MCP server exposing
add/search/list/update/delete tools over a mem0 memory backend).

Shallow embedding conventions:
* Python strings are embedded as `List Char` (called `PyStr` below); the
  embedding of string-processing code (`src/src/core/categories.py`) works
  character by character, exactly as the Python code does.
* Stateful operation functions passed to `retry_operation` are embedded as
  oracles `Nat → Except ε α`: the value at `k` is the outcome of the
  (k+1)-st invocation of the Python callable.
* Python exceptions are values of `PyErr`; a Python function that may raise
  is embedded as an `Except PyErr`-valued function, and a `try/except
  Exception` block as `pyTryE`.
* Character classes: `isWordChar` embeds the regex class `\w` and
  `isSpaceChar` the class `\s` / `str.split()` whitespace, over the ASCII
  range (Python additionally treats some non-ASCII code points as word or
  space characters; no keyword or tag in the repository contains such a
  character, and none of the theorems below depend on the extent of the
  classes).
-/

abbrev PyStr := List Char

/-- Embeds the regex character class `\w` (word characters). -/
def isWordChar (c : Char) : Bool := c.isAlphanum || c == '_'

/-- Embeds the regex class `\s` and the `str.split()` whitespace set. -/
def isSpaceChar (c : Char) : Bool :=
  c == ' ' || c == '\t' || c == '\n' || c == '\r' || c == '\x0b' || c == '\x0c'

/-- Embeds `str.lower()`. -/
def pyLower (s : PyStr) : PyStr := s.map Char.toLower

/-- One character of `re.sub(r'[^\w\s]', ' ', s)`: a character that is
neither a word character nor whitespace is replaced by a single space. -/
def normalizeChar (c : Char) : Char :=
  if isWordChar c || isSpaceChar c then c else ' '

/-- Embeds `re.sub(r'[^\w\s]', ' ', s)` (the pattern matches one character
at a time, so the substitution is pointwise and length-preserving). -/
def pyNormalize (s : PyStr) : PyStr := s.map normalizeChar

theorem dropWhile_length_le (p : α → Bool) (l : List α) :
    (l.dropWhile p).length ≤ l.length := by
  induction l with
  | nil => simp
  | cons a t ih =>
    rw [List.dropWhile_cons]
    split
    · exact Nat.le_succ_of_le ih
    · exact Nat.le_refl _

/-- Embeds `str.split()` (split on whitespace runs, dropping empty parts). -/
def splitWs : PyStr → List PyStr
  | [] => []
  | c :: rest =>
    if isSpaceChar c then splitWs rest
    else (c :: rest.takeWhile (fun d => !isSpaceChar d)) ::
      splitWs (rest.dropWhile (fun d => !isSpaceChar d))
termination_by s => s.length
decreasing_by
  · simp
  · simpa [Nat.lt_succ_iff] using dropWhile_length_le (fun d => !isSpaceChar d) rest

/-- `listPrefixOf needle hay` holds when `needle` is an initial segment of
`hay`; building block for the embedding of Python substring tests. -/
def listPrefixOf : PyStr → PyStr → Bool
  | [], _ => true
  | _ :: _, [] => false
  | a :: as, b :: bs => a == b && listPrefixOf as bs

/-- Embeds the Python substring test `needle in hay`. -/
def containsSub (hay needle : PyStr) : Bool :=
  if listPrefixOf needle hay then true
  else
    match hay with
    | [] => false
    | _ :: t => containsSub t needle

/-- Embeds `str.strip()` (drop whitespace from both ends). -/
def pyStrip (s : PyStr) : PyStr :=
  ((s.dropWhile isSpaceChar).reverse.dropWhile isSpaceChar).reverse

/-- Embeds `str.strip('#')` (drop `#` characters from both ends). -/
def stripHash (t : PyStr) : PyStr :=
  ((t.dropWhile (fun c => c == '#')).reverse.dropWhile (fun c => c == '#')).reverse

/-- Embeds `str.startswith` on embedded strings. -/
def strStartsWith (p s : String) : Bool := listPrefixOf p.data s.data

theorem listPrefixOf_iff (n h : PyStr) :
    listPrefixOf n h = true ↔ ∃ t, h = n ++ t := by
  induction n generalizing h with
  | nil => simp [listPrefixOf]
  | cons a as ih =>
    cases h with
    | nil =>
      simp only [listPrefixOf]
      constructor
      · intro hc; exact absurd hc (by simp)
      · rintro ⟨t, ht⟩; exact absurd ht (by simp)
    | cons b bs =>
      simp only [listPrefixOf, Bool.and_eq_true, beq_iff_eq, ih]
      constructor
      · rintro ⟨rfl, t, rfl⟩; exact ⟨t, rfl⟩
      · rintro ⟨t, ht⟩
        injection ht with h1 h2
        exact ⟨h1.symm, t, h2⟩

theorem containsSub_iff (h n : PyStr) :
    containsSub h n = true ↔ ∃ a b, h = a ++ n ++ b := by
  induction h with
  | nil =>
    rw [containsSub]
    constructor
    · intro hc
      split at hc
      · rename_i hp
        rcases (listPrefixOf_iff n []).1 hp with ⟨t, ht⟩
        exact ⟨[], t, by simpa using ht⟩
      · simp at hc
    · rintro ⟨a, b, hab⟩
      have ha : a = [] := by
        cases a with
        | nil => rfl
        | cons x xs => simp at hab
      subst ha
      have hn : n = [] := by
        cases n with
        | nil => rfl
        | cons x xs => simp at hab
      subst hn
      simp [listPrefixOf]
  | cons c t ih =>
    rw [containsSub]
    constructor
    · intro hc
      split at hc
      · rename_i hp
        rcases (listPrefixOf_iff n (c :: t)).1 hp with ⟨u, hu⟩
        exact ⟨[], u, by simpa using hu⟩
      · rcases ih.1 hc with ⟨a, b, hab⟩
        exact ⟨c :: a, b, by simp [hab]⟩
    · rintro ⟨a, b, hab⟩
      split
      · rfl
      · rename_i hp
        cases a with
        | nil =>
          exfalso
          apply hp
          rw [listPrefixOf_iff]
          exact ⟨b, by simpa using hab⟩
        | cons x xs =>
          apply ih.2
          refine ⟨xs, b, ?_⟩
          have h2 : t = xs ++ (n ++ b) := by
            have := congrArg List.tail hab
            simpa using this
          simpa using h2

/-! ## Embedding of `src/src/core/categories.py` (`MemoryCategories`) -/

/-- `MemoryCategories.CATEGORY_KEYWORDS`, in source (dict-insertion) order. -/
def CATEGORY_KEYWORDS : List (String × List String) :=
  [("personal_info",
    ["name", "birthday", "age", "live", "from", "born", "address",
     "phone", "email", "location", "residence", "hometown"]),
   ("work",
    ["work", "job", "company", "career", "office", "profession",
     "colleague", "boss", "employee", "business", "occupation", "employer"]),
   ("relationships",
    ["friend", "family", "wife", "husband", "child", "parent",
     "sibling", "partner", "mother", "father", "brother", "sister",
     "son", "daughter", "relative"]),
   ("goals",
    ["goal", "plan", "want", "wish", "dream", "aspire", "aim",
     "objective", "target", "ambition", "intention", "purpose"]),
   ("knowledge",
    ["know", "learn", "understand", "fact", "information", "study",
     "research", "discover", "education", "knowledge", "skill"]),
   ("skills",
    ["skill", "able", "can", "speak", "language", "expertise",
     "proficient", "experienced", "capability", "competence"]),
   ("dates_events",
    ["date", "event", "meeting", "appointment", "schedule", "calendar",
     "tomorrow", "yesterday", "today", "week", "month", "year",
     "deadline", "anniversary"]),
   ("preferences",
    ["like", "prefer", "favorite", "enjoy", "love", "hate", "dislike",
     "interest", "hobby", "passion", "taste"]),
   ("health",
    ["health", "medical", "doctor", "medicine", "sick", "exercise",
     "diet", "sleep", "illness", "condition", "treatment", "wellness"]),
   ("hobbies",
    ["hobby", "fun", "play", "game", "sport", "music", "art",
     "travel", "read", "watch", "leisure", "entertainment"]),
   ("technical",
    ["code", "programming", "software", "hardware", "technology",
     "computer", "system", "database", "network", "algorithm"]),
   ("finance",
    ["money", "budget", "expense", "income", "save", "invest",
     "loan", "credit", "debt", "financial", "bank", "payment"])]

/-- `MemoryCategories.STOP_WORDS`. -/
def STOP_WORDS : List String :=
  ["the", "a", "an", "and", "or", "but", "in", "on", "at", "to", "for",
   "of", "with", "by", "from", "about", "as", "into", "through", "during",
   "before", "after", "above", "below", "between", "under", "again",
   "further", "then", "once", "is", "am", "are", "was", "were", "be",
   "have", "has", "had", "do", "does", "did", "will", "would", "should",
   "could", "may", "might", "must", "can", "shall"]

/-- Per-keyword contribution of the scoring loop in
`MemoryCategories.categorize`: 2 for an exact word match, else 1 for a
substring match in the lowercased content, else 0. -/
def pointsFor (words : List PyStr) (contentLower : PyStr) (kw : String) : Nat :=
  if words.contains kw.data then 2
  else if containsSub contentLower kw.data then 1
  else 0

/-- The `for keyword in keywords` accumulation in `categorize`. -/
def scoreFor (words : List PyStr) (contentLower : PyStr) (kws : List String) : Nat :=
  kws.foldl (fun acc kw => acc + pointsFor words contentLower kw) 0

/-- One step of a stable descending insertion sort by score; embeds the
behaviour of `sorted(scores.items(), key=lambda x: x[1], reverse=True)`
(Python `sorted` is stable). -/
def insertDesc (p : String × Nat) : List (String × Nat) → List (String × Nat)
  | [] => [p]
  | q :: qs => if p.2 ≤ q.2 then q :: insertDesc p qs else p :: q :: qs

/-- Stable descending sort by score (see `insertDesc`). -/
def pySortDesc (l : List (String × Nat)) : List (String × Nat) :=
  l.foldl (fun acc p => insertDesc p acc) []

/-- The `words` list of `MemoryCategories.categorize`: split the
normalized lowercased content and drop stop words. -/
def categorizeWords (content : PyStr) : List PyStr :=
  (splitWs (pyNormalize (pyLower content))).filter
    (fun w => !(STOP_WORDS.map String.data).contains w)

/-- The `scores` dict of `MemoryCategories.categorize` as an association
list in dict-insertion order: categories whose score is positive, with
their scores. -/
def categorizeScores (content : PyStr) : List (String × Nat) :=
  CATEGORY_KEYWORDS.filterMap (fun p =>
    if 0 < scoreFor (categorizeWords content) (pyLower content) p.2 then
      some (p.1, scoreFor (categorizeWords content) (pyLower content) p.2)
    else none)

/-- Embeds `MemoryCategories.categorize`.  The float comparison
`score >= max(scores.values()) * 0.5` is embedded as `maxScore ≤ 2 * score`;
the two are equivalent because the scores are small integers, for which
IEEE doubles represent `n * 0.5` exactly. -/
def categorize (content : PyStr) : List String :=
  let scores := categorizeScores content
  let categories :=
    if scores.isEmpty then []
    else
      let maxScore := (scores.map Prod.snd).foldl max 0
      ((pySortDesc scores).filter (fun q => maxScore ≤ 2 * q.2)).map Prod.fst
  let categories := if categories.isEmpty then ["other"] else categories
  categories.take 3

/-- Embeds `" ".join([f"#{cat}" for cat in categories])`. -/
def tagsJoin : List String → PyStr
  | [] => []
  | [c] => '#' :: c.data
  | c :: cs => '#' :: c.data ++ ' ' :: tagsJoin cs

/-- Embeds `MemoryCategories.format_with_tags`. -/
def format_with_tags (content : PyStr) (categories : List String) : PyStr :=
  if !categories.isEmpty && categories ≠ ["other"] then
    content ++ ' ' :: '[' :: tagsJoin categories ++ [']']
  else content

/-- Recognizer for the group `#\w+(?:\s+#\w+)*` of the tag pattern in
`MemoryCategories.extract_tags`, applied to the full span between the
brackets.  Greedy maximal munch agrees with the regex because `\w`, `\s`
and the literals `#`, `]` are pairwise disjoint character sets, so a
backtracking match could never stop a `\w+` or `\s+` run early. -/
def tagsBody (l : PyStr) : Bool :=
  match l with
  | [] => false
  | c :: rest =>
    if c == '#' then
      let w := rest.takeWhile isWordChar
      let r := rest.dropWhile isWordChar
      if w.isEmpty then false
      else if r.isEmpty then true
      else
        let sp := r.takeWhile isSpaceChar
        if sp.isEmpty then false
        else tagsBody (r.dropWhile isSpaceChar)
    else false
termination_by l.length
decreasing_by
  have h1 : (rest.dropWhile isWordChar).length ≤ rest.length :=
    dropWhile_length_le _ _
  have h2 : ((rest.dropWhile isWordChar).dropWhile isSpaceChar).length ≤
      (rest.dropWhile isWordChar).length := dropWhile_length_le _ _
  simp only [List.length_cons]
  omega

/-- A match of the pattern `\[(#\w+(?:\s+#\w+)*)\]$` anchored at the
current position: the rest of the string must be `[`, a valid tag body,
then `]` at the very end.  Returns the group (the tag body). -/
def matchAt (l : PyStr) : Option PyStr :=
  match l with
  | [] => none
  | c :: rest =>
    if c == '[' then
      if rest.getLast? == some ']' then
        if tagsBody rest.dropLast then some rest.dropLast else none
      else none
    else none

/-- Scan for the leftmost position where `matchAt` succeeds, as `re.search`
does; returns the position and the group.  The empty final position never
matches (the pattern is nonempty), so the scan of an empty suffix is
`none`. -/
def findFrom : PyStr → Nat → Option (Nat × PyStr)
  | [], _ => none
  | c :: t, i =>
    match matchAt (c :: t) with
    | some b => some (i, b)
    | none => findFrom t (i + 1)

/-- Embeds `re.search(r'\[(#\w+(?:\s+#\w+)*)\]$', s)`.  In single-line
mode `$` matches at the end of the string or just before a final newline;
since the character before `$` in the pattern is `]`, this is the same as
an end-anchored search on the string with a final newline removed. -/
def reSearchTagBlock (s : PyStr) : Option (Nat × PyStr) :=
  findFrom (if s.getLast? == some '\n' then s.dropLast else s) 0

/-- Embeds `MemoryCategories.extract_tags`. -/
def extract_tags (s : PyStr) : PyStr × List String :=
  match reSearchTagBlock s with
  | some (i, body) =>
    (pyStrip (s.take i), (splitWs body).map (fun t => String.mk (stripHash t)))
  | none => (s, [])

/-! ## Embedding of the category helpers local to `src/main_render.py` -/

/-- The `CATEGORY_KEYWORDS` dict local to `main_render.py` (a smaller
10-category variant of the class-level table). -/
def RENDER_CATEGORY_KEYWORDS : List (String × List String) :=
  [("personal_info", ["name", "birthday", "age", "live", "from", "born", "address", "phone", "email"]),
   ("work", ["work", "job", "company", "career", "office", "profession", "colleague", "boss", "employee"]),
   ("relationships", ["friend", "family", "wife", "husband", "child", "parent", "sibling", "partner", "mother", "father"]),
   ("goals", ["goal", "plan", "want", "wish", "dream", "aspire", "aim", "objective", "target", "ambition"]),
   ("knowledge", ["know", "learn", "understand", "fact", "information", "study", "research", "discover"]),
   ("skills", ["skill", "able", "can", "speak", "language", "expertise", "proficient", "experienced"]),
   ("dates_events", ["date", "event", "meeting", "appointment", "schedule", "calendar", "tomorrow", "yesterday", "today", "week", "month", "year"]),
   ("preferences", ["like", "prefer", "favorite", "enjoy", "love", "hate", "dislike", "interest"]),
   ("health", ["health", "medical", "doctor", "medicine", "sick", "exercise", "diet", "sleep"]),
   ("hobbies", ["hobby", "fun", "play", "game", "sport", "music", "art", "travel", "read", "watch"])]

/-- Embeds `categorize_memory` from `main_render.py` (plain substring
matching against the local keyword table, no scores). -/
def categorize_memory (content : PyStr) : List String :=
  let contentLower := pyLower content
  let categories := RENDER_CATEGORY_KEYWORDS.filterMap (fun p =>
    if p.2.any (fun kw => containsSub contentLower kw.data) then some p.1 else none)
  if categories.isEmpty then ["other"] else categories

/-- Embeds `format_memory_with_tags` from `main_render.py`; its body is
identical to `MemoryCategories.format_with_tags`. -/
def format_memory_with_tags (content : PyStr) (categories : List String) : PyStr :=
  format_with_tags content categories

/-! ## Embedding of `retry_operation`
(`src/src/core/mem0_client.py` and the identical copy in `src/main_render.py`) -/

/-- Outcome of a call to `retry_operation`: a returned value, a raised
exception, or the `raise None` hit when `max_retries == 0` (a `TypeError`
in Python, since `last_exception` is still `None`). -/
inductive RetryResult (ε α : Type) where
  | ok (a : α)
  | raised (e : ε)
  | raisedNone
deriving DecidableEq, Repr

/-- Observable trace of one `retry_operation` call: its outcome, how many
times the wrapped callable ran, and the `time.sleep` durations (in
milliseconds) between attempts. -/
structure RetryTrace (ε α : Type) where
  result : RetryResult ε α
  calls : Nat
  sleeps : List Nat
deriving DecidableEq, Repr

/-- The `for attempt in range(max_retries)` loop of `retry_operation`.
`attempt` is the current 0-based attempt index and the second argument the
number of attempts still allowed.  On failure of a non-final attempt the
loop sleeps `retry_delay * 2 ** attempt` and continues; the failure of the
final attempt is re-raised after the loop (`raise last_exception`). -/
def retryLoop (f : Nat → Except ε α) (delayMs : Nat) : Nat → Nat → RetryTrace ε α
  | _, 0 => ⟨.raisedNone, 0, []⟩
  | attempt, r + 1 =>
    match f attempt with
    | .ok a => ⟨.ok a, 1, []⟩
    | .error e =>
      match r with
      | 0 => ⟨.raised e, 1, []⟩
      | r' + 1 =>
        let t := retryLoop f delayMs (attempt + 1) (r' + 1)
        ⟨t.result, t.calls + 1, delayMs * 2 ^ attempt :: t.sleeps⟩

/-- Embeds `retry_operation(func, max_retries, retry_delay)`; delay is in
milliseconds (the Python default arguments `max_retries=3, retry_delay=1.0`
become the arguments `3` and `1000`). -/
def retry_operation (f : Nat → Except ε α) (maxRetries delayMs : Nat) :
    RetryTrace ε α :=
  retryLoop f delayMs 0 maxRetries

/-- Embedded Python exceptions.  `malformedArgument` marks an exception
that a backend raises for a malformed argument (for example an add with
empty content); `retry_operation` itself never inspects the exception. -/
inductive PyErr where
  | exc (msg : String)
  | malformedArgument (msg : String)
deriving DecidableEq, Repr

/-- `str(e)` for an embedded exception. -/
def pyErrStr : PyErr → String
  | .exc m => m
  | .malformedArgument m => m

/-- A call through `retry_operation` as seen by callers that re-raise the
final failure (`return self.retry_operation(_op)`): the trace collapses to
the returned value or the propagated exception. -/
def retryExcept (f : Nat → Except PyErr α) (maxRetries delayMs : Nat) :
    Except PyErr α :=
  match (retry_operation f maxRetries delayMs).result with
  | .ok a => .ok a
  | .raised e => .error e
  | .raisedNone => .error (.exc "TypeError: exceptions must derive from BaseException")

/-- Embeds `Mem0ClientWrapper.add_memory`: the `_add` closure is passed to
`self.retry_operation` with the default policy (3 attempts, 1s initial
delay).  `clientAdd k` is the outcome of the (k+1)-st `self.client.add`
call. -/
def addMemoryWrapper (clientAdd : Nat → Except PyErr α) : RetryTrace PyErr α :=
  retry_operation clientAdd 3 1000

/-! ## Embedding of the tool handlers

Every tool handler in the repository wraps its whole body in
`try: ... except Exception as e: return "Error ...: ..."`.  A handler is
embedded as an `Except PyErr String`-valued function: backend calls that
raise propagate through the `do`-binds of the body, and `pyTryE` embeds
the surrounding `try/except Exception` block.  Backend responses are
supplied as invocation-indexed oracles in a `Backend` record, so that a
theorem quantifying over `Backend` covers every possible backend
behaviour, including raising on every call.  Output rendering that the
claims do not constrain (`json.dumps` layouts, numbered listings) is
embedded as plain total rendering functions over the same data. -/

/-- A memory record as the tools read it (`memory`/`id`/`created_at`
fields, with the relevance `score` embedded in centi-units: a Python
score of `0.87` is `87`). -/
structure MemRec where
  memory : String
  id : String
  createdAt : String
  score : Nat
deriving DecidableEq, Repr

/-- Invocation-indexed outcomes of the five backend calls.  `add` returns
`some id` when the response object has an `id` attribute (checked by the
render variant), `none` otherwise; `update`/`delete` return the truthiness
of the response. -/
structure Backend where
  add : Nat → Except PyErr (Option String)
  search : Nat → Except PyErr (List MemRec)
  getAll : Nat → Except PyErr (List MemRec)
  update : Nat → Except PyErr Bool
  delete : Nat → Except PyErr Bool

/-- A `Backend` whose `add` behaves as given and whose other operations
trivially succeed; used to instantiate theorems about the add tools. -/
def mkAddBackend (f : Nat → Except PyErr (Option String)) : Backend :=
  ⟨f, fun _ => .ok [], fun _ => .ok [], fun _ => .ok true, fun _ => .ok true⟩

/-- Embeds `try: <body> except Exception as e: return <handler e>`. -/
def pyTryE (body : Except PyErr String) (handler : PyErr → String) :
    Except PyErr String :=
  match body with
  | .ok s => .ok s
  | .error e => .ok (handler e)

/-- Whether an embedded computation returned normally. -/
def exceptOk : Except ε α → Bool
  | .ok _ => true
  | .error _ => false

/-- A single-quote character as a string (used by several message
formats in the source). -/
def sqc : String := String.mk [Char.ofNat 39]

/-- Rendering of `json.dumps` on a list of strings (layout abstracted). -/
def jsonStrArr (l : List String) : String :=
  "[" ++ String.intercalate ", " (l.map (fun s => "\"" ++ s ++ "\"")) ++ "]"

/-- `f"{score:.2f}"` on a centi-unit score. -/
def twoDecimals (n : Nat) : String :=
  toString (n / 100) ++ "." ++ (if n % 100 < 10 then "0" else "") ++
    toString (n % 100)

/-! ### Basic variant: the three tools of `src/main.py`
(direct `mem0_client` calls, no retry wrapper) -/

/-- Embeds `add_memory` of `src/main.py`. -/
def basicAddMemory (text : String) (b : Backend) : Except PyErr String :=
  pyTryE (do
      let _ ← b.add 0
      pure ("Successfully added to memory: " ++ text))
    (fun e => "Error adding to memory: " ++ pyErrStr e)

/-- Embeds `get_all_memories` of `src/main.py`. -/
def basicGetAllMemories (b : Backend) : Except PyErr String :=
  pyTryE (do
      let ms ← b.getAll 0
      pure (jsonStrArr (ms.map (fun m => m.memory))))
    (fun e => "Error getting memories: " ++ pyErrStr e)

/-- Embeds `search_memories` of `src/main.py`. -/
def basicSearchMemories (query : String) (b : Backend) : Except PyErr String :=
  pyTryE (do
      let ms ← b.search 0
      pure (jsonStrArr (ms.map (fun m => m.memory))))
    (fun e => "Error searching memories: " ++ pyErrStr e)

/-! ### Unified variant: the tools of `src/src/tools/memory_tools.py`
(every backend call goes through `Mem0ClientWrapper`, hence through
`retry_operation` with the default policy, embedded as
`retryExcept _ 3 1000`) -/

/-- Embeds `MemoryTools.add_memory`. -/
def uAddMemory (text : String) (b : Backend) : Except PyErr String :=
  pyTryE (do
      let categories := categorize text.data
      let _tagged := format_with_tags text.data categories
      let _ ← retryExcept b.add 3 1000
      pure ("Successfully added to memory: " ++ text))
    (fun e => "Error adding to memory: " ++ pyErrStr e)

/-- Embeds `MemoryTools.get_all_memories`. -/
def uGetAllMemories (b : Backend) : Except PyErr String :=
  pyTryE (do
      let ms ← retryExcept b.getAll 3 1000
      pure (jsonStrArr (ms.map (fun m => m.memory))))
    (fun e => "Error getting memories: " ++ pyErrStr e)

/-- Embeds `MemoryTools.search_memories`. -/
def uSearchMemories (query : String) (b : Backend) : Except PyErr String :=
  pyTryE (do
      let ms ← retryExcept b.search 3 1000
      pure (jsonStrArr (ms.map (fun m => m.memory))))
    (fun e => "Error searching memories: " ++ pyErrStr e)

/-- Embeds `MemoryTools.update_memory`. -/
def uUpdateMemory (memoryId newContent : String) (b : Backend) :
    Except PyErr String :=
  pyTryE (do
      let categories := categorize newContent.data
      let _tagged := format_with_tags newContent.data categories
      let _ ← retryExcept b.update 3 1000
      pure ("Successfully updated memory " ++ memoryId))
    (fun e => "Error updating memory: " ++ pyErrStr e)

/-- Embeds `MemoryTools.delete_memory`. -/
def uDeleteMemory (memoryId : String) (b : Backend) : Except PyErr String :=
  pyTryE (do
      let _ ← retryExcept b.delete 3 1000
      pure ("Successfully deleted memory " ++ memoryId))
    (fun e => "Error deleting memory: " ++ pyErrStr e)

/-- Rendering of `json.dumps` on a list of memory records (layout
abstracted). -/
def memsRender (ms : List MemRec) : String :=
  String.intercalate "; " (ms.map (fun m => m.id ++ ": " ++ m.memory))

/-- Embeds `MemoryTools.advanced_search_memories`. -/
def uAdvancedSearch (query : Option String) (category : Option String)
    (limit minScore : Nat) (b : Backend) : Except PyErr String :=
  pyTryE (do
      let ms ← match query with
        | some _ => retryExcept b.search 3 1000
        | none => retryExcept b.getAll 3 1000
      let ms := match category with
        | some c => ms.filter (fun m => ((extract_tags m.memory.data).2).contains c)
        | none => ms
      let ms := if query.isSome && 0 < minScore then
          ms.filter (fun m => minScore ≤ m.score) else ms
      pure (memsRender ms))
    (fun e => "Error searching memories: " ++ pyErrStr e)

/-- Adds one tag occurrence to an association list of counts. -/
def bumpCount (l : List (String × Nat)) (k : String) : List (String × Nat) :=
  match l with
  | [] => [(k, 1)]
  | (k2, n) :: t => if k2 == k then (k2, n + 1) :: t else (k2, n) :: bumpCount t k

/-- Tag counts over a memory list, via `MemoryCategories.extract_tags`. -/
def tagCounts (ms : List MemRec) : List (String × Nat) :=
  ms.foldl (fun acc m => ((extract_tags m.memory.data).2).foldl bumpCount acc) []

/-- Rendering of the statistics object of `MemoryTools.get_memory_stats`
(JSON layout abstracted; the counts are the source's tag counts). -/
def uStatsRender (ms : List MemRec) : String :=
  "total_memories: " ++ toString ms.length ++ "; categories: " ++
    String.intercalate ", " ((tagCounts ms).map (fun p => p.1 ++ "=" ++ toString p.2))

/-- Embeds `MemoryTools.get_memory_stats`. -/
def uGetMemoryStats (b : Backend) : Except PyErr String :=
  pyTryE (do
      let ms ← retryExcept b.getAll 3 1000
      pure (uStatsRender ms))
    (fun e => "Error getting memory statistics: " ++ pyErrStr e)

/-- Rendering of the analysis object of `MemoryTools.analyze_memories`
(JSON layout abstracted). -/
def uAnalysisRender (ms : List MemRec) : String :=
  "total_memories: " ++ toString ms.length ++ "; category_distribution: " ++
    String.intercalate ", " ((pySortDesc (tagCounts ms)).map
      (fun p => p.1 ++ "=" ++ toString p.2)) ++
    (if 10 < ms.length then "; You have a substantial memory collection" else "")

/-- Embeds `MemoryTools.analyze_memories`. -/
def uAnalyzeMemories (b : Backend) : Except PyErr String :=
  pyTryE (do
      let ms ← retryExcept b.getAll 3 1000
      pure (uAnalysisRender ms))
    (fun e => "Error analyzing memories: " ++ pyErrStr e)

/-- Embeds `MemoryTools.get_memories_by_category`. -/
def uGetMemoriesByCategory (category : Option String) (b : Backend) :
    Except PyErr String :=
  pyTryE (match category with
      | none =>
        pure ("available_categories: " ++
          String.intercalate ", " (CATEGORY_KEYWORDS.map Prod.fst))
      | some c => do
        let ms ← retryExcept b.getAll 3 1000
        let filtered := ms.filter
          (fun m => ((extract_tags m.memory.data).2).contains c)
        pure ("category: " ++ c ++ "; count: " ++ toString filtered.length ++
          "; memories: " ++ memsRender filtered))
    (fun e => "Error: " ++ pyErrStr e)

/-- Embeds `MemoryTools.export_memories`. -/
def uExportMemories (includeMetadata : Bool) (b : Backend) :
    Except PyErr String :=
  pyTryE (do
      let ms ← retryExcept b.getAll 3 1000
      pure ("total_memories: " ++ toString ms.length ++ "; " ++
        String.intercalate "; " (ms.map (fun m =>
          if includeMetadata then
            m.id ++ ": " ++ m.memory ++ " [" ++
              String.intercalate "," (extract_tags m.memory.data).2 ++ "]"
          else m.memory))))
    (fun e => "Error exporting memories: " ++ pyErrStr e)

/-- Embeds the truncation `content[:97] + "..."` for long memories. -/
def truncate100 (s : String) : String :=
  if 100 < s.data.length then String.mk (s.data.take 97) ++ "..." else s

/-- Embeds `MemoryTools.check_relevant_memories`. -/
def uCheckRelevantMemories (topic : String) (b : Backend) :
    Except PyErr String :=
  pyTryE (do
      let ms ← retryExcept b.search 3 1000
      if ms.isEmpty then
        pure "No relevant memories found for this topic."
      else
        pure ("Found " ++ toString ms.length ++ " relevant memories:\n" ++
          String.join ((ms.enum).map (fun p =>
            toString (p.1 + 1) ++ ". " ++ truncate100 p.2.memory ++ "\n"))))
    (fun e => "Error checking memories: " ++ pyErrStr e)

/-! ### Render variant: the tools of `src/main_render.py` -/

/-- The small 8-category keyword dict repeated inside
`advanced_search_memories`, `get_memory_stats`, `analyze_memories` and
`export_memories` of `main_render.py`. -/
def renderSmallKeywords : List (String × List String) :=
  [("personal_info", ["name", "birthday", "age", "live", "from", "born"]),
   ("work", ["work", "job", "company", "career", "office", "profession"]),
   ("relationships", ["friend", "family", "wife", "husband", "child", "parent", "colleague"]),
   ("goals", ["goal", "plan", "want", "wish", "dream", "aspire", "aim"]),
   ("knowledge", ["know", "learn", "understand", "fact", "information", "study"]),
   ("skills", ["skill", "able", "can", "speak", "language", "expertise"]),
   ("dates_events", ["date", "event", "meeting", "appointment", "schedule", "calendar"]),
   ("preferences", ["like", "prefer", "favorite", "enjoy", "love", "hate", "dislike"])]

/-- The dict of `advanced_search_memories`, which adds an empty `other`. -/
def renderAdvCatKeywords : List (String × List String) :=
  renderSmallKeywords ++ [("other", [])]

/-- Embeds `check_relevant_memories` of `main_render.py` (retry with the
reduced policy `max_retries=2, retry_delay=0.5`). -/
def rCheckRelevantMemories (topic : String) (b : Backend) :
    Except PyErr String :=
  pyTryE (do
      let results ← retryExcept b.search 2 500
      if results.isEmpty then
        pure ("No specific memories found about " ++ sqc ++ topic ++ sqc ++ ".")
      else
        pure ("Found " ++ toString results.length ++
          " relevant memories about " ++ sqc ++ topic ++ sqc ++ ":\n" ++
          String.join ((results.filter (fun m => 70 < m.score)).map
            (fun m => "• " ++ m.memory ++ "\n"))))
    (fun _ => "Could not check memories at this time.")

/-- Embeds `add_memory` of `main_render.py`. -/
def rAddMemory (content : String) (b : Backend) : Except PyErr String :=
  pyTryE (do
      let categories := categorize_memory content.data
      let _tagged := format_memory_with_tags content.data categories
      let response ← retryExcept b.add 3 1000
      let categoryInfo := if categories ≠ ["other"] then
          " (Categories: " ++ String.intercalate ", " categories ++ ")" else ""
      match response with
      | some rid =>
        pure ("Successfully stored memory with ID: " ++ rid ++ categoryInfo ++
          ". The information has been indexed and can be retrieved later.")
      | none => pure ("Memory stored successfully" ++ categoryInfo ++ "."))
    (fun e => "Error storing memory: " ++ pyErrStr e ++ ". Please try again later.")

/-- The numbered `1. [id] text / Created: ...` listing used by
`get_all_memories` of `main_render.py`. -/
def rMemoryListRender (ms : List MemRec) : String :=
  String.intercalate "\n\n" ((ms.enum).map (fun p =>
    toString (p.1 + 1) ++ ". [" ++ p.2.id ++ "] " ++ p.2.memory ++
      "\n   Created: " ++ p.2.createdAt))

/-- Embeds `get_all_memories` of `main_render.py`. -/
def rGetAllMemories (b : Backend) : Except PyErr String :=
  pyTryE (do
      let memories ← retryExcept b.getAll 3 1000
      if memories.isEmpty then
        pure ("No memories found. Start by adding some information you" ++
          sqc ++ "d like me to remember!")
      else
        pure ("Here are all your stored memories:\n\n" ++ rMemoryListRender memories))
    (fun e => "Error retrieving memories: " ++ pyErrStr e ++ ". Please try again later.")

/-- The numbered `1. [id] (Relevance: s) text / Created: ...` listing of
the render search tools. -/
def rSearchListRender (ms : List MemRec) : String :=
  String.intercalate "\n\n" ((ms.enum).map (fun p =>
    toString (p.1 + 1) ++ ". [" ++ p.2.id ++ "] (Relevance: " ++
      twoDecimals p.2.score ++ ") " ++ p.2.memory ++ "\n   Created: " ++
      p.2.createdAt))

/-- Embeds `search_memories` of `main_render.py`. -/
def rSearchMemories (query : String) (b : Backend) : Except PyErr String :=
  pyTryE (do
      let results ← retryExcept b.search 3 1000
      if results.isEmpty then
        pure ("No memories found matching " ++ sqc ++ query ++ sqc ++
          ". Try a different search term or check all memories.")
      else
        pure ("Found " ++ toString results.length ++ " memories matching " ++
          sqc ++ query ++ sqc ++ ":\n\n" ++ rSearchListRender results))
    (fun e => "Error searching memories: " ++ pyErrStr e ++ ". Please try again later.")

/-- Header of the `advanced_search_memories` result listing. -/
def rAdvHeader (query category : Option String) (n : Nat) : String :=
  "Found " ++ toString n ++ " memories" ++
    (match category with
     | some c => " in category " ++ sqc ++ c ++ sqc
     | none => "") ++
    (match query with
     | some q => " matching " ++ sqc ++ q ++ sqc
     | none => "")

/-- Embeds `advanced_search_memories` of `main_render.py`.  Both backend
calls in it are direct (`mem0_client.search` / `mem0_client.get_all`
without `retry_operation`).  When only a category is given the effective
query is `" OR ".join(keywords)`, which is empty (falsy) exactly for the
keyword-less `other` category. -/
def rAdvancedSearch (query category : Option String) (limit minScore : Nat)
    (b : Backend) : Except PyErr String :=
  pyTryE (do
      let validCats := renderAdvCatKeywords.map Prod.fst
      if category.isSome && query.isNone && !(validCats.contains (category.getD "")) then
        pure ("Invalid category " ++ sqc ++ category.getD "" ++ sqc ++
          ". Valid categories: " ++ String.intercalate ", " validCats)
      else do
        let effSearch := query.isSome ||
          (match category with
           | some c => (((renderAdvCatKeywords.find? (fun p => p.1 == c)).map
               (fun p => !p.2.isEmpty)).getD false)
           | none => false)
        let results ←
          if effSearch then b.search 0
          else do
            let ms ← b.getAll 0
            pure ((ms.take limit).map (fun m => { m with score := 100 }))
        if results.isEmpty then
          pure "No memories found matching your criteria."
        else do
          let results : List MemRec := match category with
            | some c =>
              if c ≠ "other" then
                results.filter (fun m =>
                  ((((renderAdvCatKeywords.find? (fun p => p.1 == c)).map
                      Prod.snd).getD []).any
                    (fun kw => containsSub (pyLower m.memory.data) kw.data)))
              else results
            | none => results
          let results := results.filter (fun m => minScore ≤ m.score)
          let results := results.take limit
          if results.isEmpty then
            pure "No memories found matching your criteria. Try adjusting the filters."
          else
            pure (rAdvHeader query category results.length ++ ":\n\n" ++
              rSearchListRender results))
    (fun e => "Error in advanced search: " ++ pyErrStr e)

/-- Embeds `update_memory` of `main_render.py`. -/
def rUpdateMemory (memoryId newContent : String) (b : Backend) :
    Except PyErr String :=
  pyTryE (do
      let response ← retryExcept b.update 3 1000
      if response then
        pure ("Successfully updated memory [" ++ memoryId ++
          "] with new content: " ++ newContent)
      else
        pure ("Failed to update memory [" ++ memoryId ++
          "]. Please check if the memory ID is correct."))
    (fun e => "Error updating memory: " ++ pyErrStr e ++ ". Please try again later.")

/-- Embeds `delete_memory` of `main_render.py`. -/
def rDeleteMemory (memoryId : String) (b : Backend) : Except PyErr String :=
  pyTryE (do
      let response ← retryExcept b.delete 3 1000
      if response then
        pure ("Successfully deleted memory [" ++ memoryId ++
          "]. This action cannot be undone.")
      else
        pure ("Failed to delete memory [" ++ memoryId ++
          "]. Please check if the memory ID is correct."))
    (fun e => "Error deleting memory: " ++ pyErrStr e ++ ". Please try again later.")

/-- First matching category (dict order, `break` semantics) against the
lowercased memory text, as `get_memory_stats`/`analyze_memories` do. -/
def firstCategoryOf (text : PyStr) : Option String :=
  renderSmallKeywords.findSome? (fun p =>
    if p.2.any (fun kw => containsSub (pyLower text) kw.data) then some p.1
    else none)

/-- The statistics text of `get_memory_stats` of `main_render.py` (header
layout abstracted; the counts are the source's first-match counts with an
`other` bucket, and the recent list is the last five records). -/
def rStatsRender (ms : List MemRec) : String :=
  let counts := (renderSmallKeywords.map (fun p =>
    (p.1, (ms.filter (fun m => firstCategoryOf m.memory.data == some p.1)).length)))
    ++ [("other", (ms.filter (fun m => firstCategoryOf m.memory.data == none)).length)]
  let recent := ms.drop (ms.length - 5)
  "Total Memories: " ++ toString ms.length ++ "\n\nCategories Breakdown:\n" ++
    String.join (((pySortDesc counts).filter (fun p => 0 < p.2)).map
      (fun p => "  • " ++ p.1 ++ ": " ++ toString p.2 ++ "\n")) ++
    "\nRecent Memories:\n" ++
    String.join ((recent.enum).map (fun p =>
      "  " ++ toString (p.1 + 1) ++ ". " ++
        String.mk (p.2.memory.data.take 50) ++ "\n"))

/-- Embeds `get_memory_stats` of `main_render.py` (direct `get_all`, no
retry). -/
def rGetMemoryStats (b : Backend) : Except PyErr String :=
  pyTryE (do
      let memories ← b.getAll 0
      if memories.isEmpty then
        pure "No memories found. Start adding some information for me to remember!"
      else
        pure (rStatsRender memories))
    (fun e => "Error getting memory statistics: " ++ pyErrStr e)

/-- The analysis text of `analyze_memories` of `main_render.py` (section
layout abstracted; the grouping is the source's first-match grouping). -/
def rAnalysisRender (ms : List MemRec) : String :=
  let grouped := renderSmallKeywords.map (fun p =>
    (p.1, (ms.filter (fun m => firstCategoryOf m.memory.data == some p.1)).map
      (fun m => m.memory)))
  "Memory Analysis and Summary\n" ++
    String.join (grouped.map (fun p =>
      if p.2.isEmpty then ""
      else p.1 ++ ":\n" ++
        String.join ((p.2.take 3).map (fun m => "  • " ++ m ++ "\n")))) ++
    "Key Insights:\n  • You have " ++ toString ms.length ++
    " total memories stored\n"

/-- Embeds `analyze_memories` of `main_render.py` (direct `get_all`). -/
def rAnalyzeMemories (b : Backend) : Except PyErr String :=
  pyTryE (do
      let memories ← b.getAll 0
      if memories.isEmpty then
        pure "No memories found to analyze. Start adding some information for me to remember!"
      else
        pure (rAnalysisRender memories))
    (fun e => "Error analyzing memories: " ++ pyErrStr e)

/-- Tag extraction of `get_memories_by_category` of `main_render.py`
(`rfind`-based bracket scan, with `categorize_memory` as fallback). -/
def rTagsOfMemory (text : PyStr) : List String :=
  let tags := (extract_tags text).2
  if tags.isEmpty then categorize_memory text else tags

/-- The grouped listing of `get_memories_by_category` (layout abstracted;
the grouping keys are the extracted or computed tags). -/
def rByCategoryRender (category : Option String) (ms : List MemRec) : String :=
  match category with
  | some c =>
    let inCat := ms.filter (fun m => (rTagsOfMemory m.memory.data).contains c)
    if inCat.isEmpty then
      "No memories found in category " ++ sqc ++ c ++ sqc ++ "."
    else
      "Memories in category " ++ sqc ++ c ++ sqc ++ " (" ++
        toString inCat.length ++ " items):\n" ++ memsRender inCat
  | none =>
    "Memories by Category\n" ++
      String.intercalate "\n" ((CATEGORY_KEYWORDS.map Prod.fst).map (fun c =>
        c ++ ": " ++
          toString (ms.filter (fun m => (rTagsOfMemory m.memory.data).contains c)).length))

/-- Embeds `get_memories_by_category` of `main_render.py` (retry-wrapped
`get_all`). -/
def rGetMemoriesByCategory (category : Option String) (b : Backend) :
    Except PyErr String :=
  pyTryE (do
      let memories ← retryExcept b.getAll 3 1000
      if memories.isEmpty then
        pure "No memories found. Start adding some information for me to remember!"
      else
        pure (rByCategoryRender category memories))
    (fun e => "Error getting memories by category: " ++ pyErrStr e ++
      ". Please try again later.")

/-- The export text of `export_memories` of `main_render.py` (JSON layout
abstracted). -/
def rExportRender (includeMetadata : Bool) (ms : List MemRec) : String :=
  "Successfully exported " ++ toString ms.length ++ " memories:\n\n" ++
    String.intercalate "\n" (ms.map (fun m =>
      if includeMetadata then
        m.id ++ " " ++ m.createdAt ++ " " ++ m.memory ++ " [" ++
          String.intercalate "," (renderSmallKeywords.filterMap (fun p =>
            if p.2.any (fun kw => containsSub (pyLower m.memory.data) kw.data)
            then some p.1 else none)) ++ "]"
      else m.memory)) ++
    "\n\nYou can save this JSON data to a file for backup or sharing."

/-- Embeds `export_memories` of `main_render.py` (direct `get_all`). -/
def rExportMemories (includeMetadata : Bool) (b : Backend) :
    Except PyErr String :=
  pyTryE (do
      let memories ← b.getAll 0
      if memories.isEmpty then
        pure ("total_memories: 0; memories: []")
      else
        pure (rExportRender includeMetadata memories))
    (fun e => "Error exporting memories: " ++ pyErrStr e)

/-- The import summary of `import_memories` of `main_render.py`. -/
def importSummary (imported skipped errors : Nat) : String :=
  "Import completed:\n✅ Successfully imported: " ++ toString imported ++
    " memories\n" ++
    (if 0 < skipped then
      "⏭️ Skipped (duplicates): " ++ toString skipped ++ " memories\n"
     else "") ++
    (if 0 < errors then "❌ Errors: " ++ toString errors ++ " memories\n" else "")

/-- Embeds `import_memories` of `main_render.py`.  `json.loads` and the
per-item content extraction are abstracted into the `parsed` argument
(`.error` = `JSONDecodeError`, an item of `none` = an entry with invalid
shape or empty content).  The duplicate-check `get_all` and the per-item
`add` calls are direct (no retry); each `add` sits in an inner
`try/except` whose failures only increment the error counter. -/
def rImportMemories (parsed : Except PyErr (List (Option String)))
    (skipDuplicates : Bool) (b : Backend) : Except PyErr String :=
  pyTryE (match parsed with
      | .error e => pure ("Invalid JSON format: " ++ pyErrStr e)
      | .ok items => do
        let existing ←
          if skipDuplicates then do
            let ms ← b.getAll 0
            pure (ms.map (fun m => pyLower m.memory.data))
          else pure []
        let stats := (items.enum).foldl (fun (acc : Nat × Nat × Nat) p =>
          match p.2 with
          | none => (acc.1, acc.2.1, acc.2.2 + 1)
          | some content =>
            if skipDuplicates && existing.contains (pyLower content.data) then
              (acc.1, acc.2.1 + 1, acc.2.2)
            else
              match b.add p.1 with
              | .ok _ => (acc.1 + 1, acc.2.1, acc.2.2)
              | .error _ => (acc.1, acc.2.1, acc.2.2 + 1)) (0, 0, 0)
        pure (importSummary stats.1 stats.2.1 stats.2.2))
    (fun e => "Error importing memories: " ++ pyErrStr e)

/-! ## Server composition: routes, health bodies, message dispatch -/

/-- The route table of `create_starlette_app` in `src/main.py` (basic
variant): only the SSE stream and the message mount, no liveness routes. -/
def basicAppRoutes : List String := ["/sse", "/messages/"]

/-- The route table of the `app = Starlette(...)` composition in
`src/main_render.py`, in declaration order with the allowed methods
(the mount has no method restriction). -/
def renderAppRoutes : List (String × List String) :=
  [("/sse", ["POST", "GET", "OPTIONS"]),
   ("/messages/", []),
   ("/", ["GET"]),
   ("/health", ["GET"])]

/-- The route table of `ServerFactory.create_starlette_app` with
`include_health=True` (the value `create_server` always passes). -/
def factoryAppRoutes : List (String × List String) :=
  [("/sse", []),
   ("/messages/", []),
   ("/", ["GET"]),
   ("/health", ["GET"])]

/-- The JSON body of `health_check` in `src/main_render.py`, as its
key-value pairs in source order. -/
def renderHealthBody : List (String × String) :=
  [("status", "healthy"), ("service", "mem0-mcp")]

/-- The JSON body of `ServerFactory.health_check`, as its key-value pairs
in source order (`ts` stands for the `datetime.now().isoformat()` value). -/
def factoryHealthBody (ts : String) : List (String × String) :=
  [("status", "healthy"), ("service", "mem0-mcp"), ("timestamp", ts)]

/-- The one denylisted stale session identifier named by the spec and by
`src/test_stale_session.py` / `src/test_local_interceptor.py`. -/
def STALE_SESSION_ID : String := "467db479-421a-41d2-9ff4-a7ad29678bb6"

/-- Modelled from the library behaviour of
`SseServerTransport.handle_post_message` (the `mcp` package dependency
that `main_render.py` mounts at `/messages/`): it validates the
`session_id` query parameter, looks the session up in the live session
map, answers 404 `Could not find session` when it is absent and 202
`Accepted` when present.  Status codes are paired with the response
body. -/
def handlePostMessage (sessions : List String) (sessionId : Option String) :
    Nat × String :=
  match sessionId with
  | none => (400, "session_id is required")
  | some sid =>
    if sessions.contains sid then (202, "Accepted")
    else (404, "Could not find session")

/-- Dispatch of one request by the `app` of `src/main_render.py`:
Starlette tries the routes in declaration order; the `/messages/` mount
forwards directly to `handle_post_message` with no inspection of the
session identifier on the way. -/
def renderAppDispatch (sessions : List String) (method path : String)
    (sessionId : Option String) : Nat × String :=
  if path == "/sse" then (200, "event-stream")
  else if strStartsWith "/messages/" path then handlePostMessage sessions sessionId
  else if path == "/" && method == "GET" then
    (200, String.intercalate "," (renderHealthBody.map (fun p => p.1 ++ ":" ++ p.2)))
  else if path == "/health" && method == "GET" then
    (200, String.intercalate "," (renderHealthBody.map (fun p => p.1 ++ ":" ++ p.2)))
  else (404, "Not Found")

/-! ## Backend call sites

One entry per backend call site in the three server variants, transcribed
from the source: which tool makes the call, which backend operation it is,
whether it goes through `retry_operation`, and with which policy
(`maxRetries`, initial delay in ms).  Unwrapped (direct) call sites carry
`maxRetries = 1`, `delayMs = 0`.  The `wrapper` variant is
`Mem0ClientWrapper` (`src/src/core/mem0_client.py`), through which every
`MemoryTools` backend call is routed. -/

inductive BackendOp where
  | add
  | search
  | getAll
  | update
  | delete
deriving DecidableEq, Repr

structure CallSite where
  variant : String
  tool : String
  op : BackendOp
  wrapped : Bool
  maxRetries : Nat
  delayMs : Nat
deriving DecidableEq, Repr

def callSites : List CallSite :=
  -- src/main.py: direct client calls in every tool
  [⟨"basic", "add_memory", .add, false, 1, 0⟩,
   ⟨"basic", "get_all_memories", .getAll, false, 1, 0⟩,
   ⟨"basic", "search_memories", .search, false, 1, 0⟩,
   -- src/src/core/mem0_client.py: every wrapper method retries with the
   -- default policy
   ⟨"wrapper", "add_memory", .add, true, 3, 1000⟩,
   ⟨"wrapper", "search_memories", .search, true, 3, 1000⟩,
   ⟨"wrapper", "get_all_memories", .getAll, true, 3, 1000⟩,
   ⟨"wrapper", "update_memory", .update, true, 3, 1000⟩,
   ⟨"wrapper", "delete_memory", .delete, true, 3, 1000⟩,
   -- src/main_render.py
   ⟨"render", "check_relevant_memories", .search, true, 2, 500⟩,
   ⟨"render", "add_memory", .add, true, 3, 1000⟩,
   ⟨"render", "get_all_memories", .getAll, true, 3, 1000⟩,
   ⟨"render", "search_memories", .search, true, 3, 1000⟩,
   ⟨"render", "advanced_search_memories", .getAll, false, 1, 0⟩,
   ⟨"render", "advanced_search_memories", .search, false, 1, 0⟩,
   ⟨"render", "update_memory", .update, true, 3, 1000⟩,
   ⟨"render", "delete_memory", .delete, true, 3, 1000⟩,
   ⟨"render", "get_memory_stats", .getAll, false, 1, 0⟩,
   ⟨"render", "analyze_memories", .getAll, false, 1, 0⟩,
   ⟨"render", "get_memories_by_category", .getAll, true, 3, 1000⟩,
   ⟨"render", "export_memories", .getAll, false, 1, 0⟩,
   ⟨"render", "import_memories", .getAll, false, 1, 0⟩,
   ⟨"render", "import_memories", .add, false, 1, 0⟩]

/-! ## Retry lemmas and claims C2, C3, C4, C5 -/

theorem retryLoop_one {ε α : Type} (f : Nat → Except ε α) (D a : Nat) :
    retryLoop f D a 1 = (match f a with
      | .ok v => ⟨.ok v, 1, []⟩
      | .error e => ⟨.raised e, 1, []⟩ : RetryTrace ε α) := by
  rw [retryLoop]

theorem retryLoop_two_plus {ε α : Type} (f : Nat → Except ε α) (D a m : Nat) :
    retryLoop f D a (m + 2) = (match f a with
      | .ok v => ⟨.ok v, 1, []⟩
      | .error _ =>
        ⟨(retryLoop f D (a + 1) (m + 1)).result,
         (retryLoop f D (a + 1) (m + 1)).calls + 1,
         D * 2 ^ a :: (retryLoop f D (a + 1) (m + 1)).sleeps⟩ : RetryTrace ε α) := by
  rw [retryLoop]

theorem retryLoop_const_error {ε α : Type} (f : Nat → Except ε α)
    (g : Nat → ε) (hf : ∀ k, f k = Except.error (g k)) (D : Nat) :
    ∀ (n a : Nat),
      (retryLoop f D a (n + 1)).result = RetryResult.raised (g (a + n)) ∧
      (retryLoop f D a (n + 1)).calls = n + 1 := by
  intro n
  induction n with
  | zero =>
    intro a
    rw [retryLoop_one, hf a]
    exact ⟨rfl, rfl⟩
  | succ m ih =>
    intro a
    have h := ih (a + 1)
    rw [show m + 1 + 1 = m + 2 from rfl, retryLoop_two_plus, hf a]
    refine ⟨?_, ?_⟩
    · show (retryLoop f D (a + 1) (m + 1)).result = RetryResult.raised (g (a + (m + 1)))
      rw [h.1]
      have : a + 1 + m = a + (m + 1) := by omega
      rw [this]
    · show (retryLoop f D (a + 1) (m + 1)).calls + 1 = m + 1 + 1
      rw [h.2]

/-- C2: for an operation that raises on every invocation,
`retry_operation(f, max_retries=N, retry_delay=D)` invokes it exactly `N`
times and only then raises the exception of the final (N-th) attempt to
the caller; no earlier failure is surfaced. -/
theorem c2_retry_always_fails {ε α : Type} (f : Nat → Except ε α)
    (g : Nat → ε) (hf : ∀ k, f k = Except.error (g k)) (N D : Nat)
    (hN : 0 < N) :
    (retry_operation f N D).result = RetryResult.raised (g (N - 1)) ∧
    (retry_operation f N D).calls = N := by
  obtain ⟨n, rfl⟩ : ∃ n, N = n + 1 := ⟨N - 1, by omega⟩
  have h := retryLoop_const_error f g hf D n 0
  simpa [retry_operation] using h

/-- C2 witness: with the default `max_retries = 3` and an operation that
raises the attempt index, the caller sees exactly three calls and the
exception of the third attempt. -/
theorem c2_retry_always_fails_witness :
    (retry_operation (fun k => (Except.error k : Except Nat Unit)) 3 1000).result
        = RetryResult.raised 2 ∧
      (retry_operation (fun k => (Except.error k : Except Nat Unit)) 3 1000).calls = 3 :=
  c2_retry_always_fails _ (fun k => k) (fun _ => rfl) 3 1000 (by decide)

/-- C3: for an operation that raises on its first two invocations and
returns `v` on the third, `retry_operation` with the default policy
returns `v` after exactly three invocations (sleeping 1s then 2s in
between); the caller observes the single successful outcome. -/
theorem c3_retry_two_failures_then_success {ε α : Type}
    (f : Nat → Except ε α) (e0 e1 : ε) (v : α) (h0 : f 0 = Except.error e0)
    (h1 : f 1 = Except.error e1) (h2 : f 2 = Except.ok v) :
    retry_operation f 3 1000 = ⟨RetryResult.ok v, 3, [1000, 2000]⟩ := by
  simp [retry_operation, retryLoop, h0, h1, h2]

/-- C3 witness at a concrete fail-fail-succeed operation. -/
theorem c3_retry_two_failures_then_success_witness :
    retry_operation (fun k =>
      if k == 0 then (Except.error 7 : Except Nat String)
      else if k == 1 then Except.error 8 else Except.ok "v") 3 1000 =
      ⟨RetryResult.ok "v", 3, [1000, 2000]⟩ :=
  c3_retry_two_failures_then_success _ 7 8 "v" rfl rfl rfl

/-- C4 counterexample: a backend whose `add` always raises a
malformed-argument error (empty content) is retried like any other
failure — `Mem0ClientWrapper.add_memory` invokes it three times with
backoff sleeps instead of surfacing the error immediately (which would
mean one call and no sleep): `retry_operation` never inspects the
exception. -/
theorem c4_counterexample_malformed_is_retried :
    (addMemoryWrapper (fun _ =>
        (Except.error (PyErr.malformedArgument "empty content") : Except PyErr Unit))).calls = 3 ∧
    (addMemoryWrapper (fun _ =>
        (Except.error (PyErr.malformedArgument "empty content") : Except PyErr Unit))).sleeps = [1000, 2000] ∧
    (addMemoryWrapper (fun _ =>
        (Except.error (PyErr.malformedArgument "empty content") : Except PyErr Unit))).result
      = RetryResult.raised (PyErr.malformedArgument "empty content") :=
  ⟨rfl, rfl, rfl⟩

/-- C4 (amended): `retry_operation` does not discriminate between error
kinds: every failure, including a malformed-argument error, goes through
the full retry policy and is surfaced only after the final attempt. -/
theorem c4_amended_all_errors_retried (msg : String) (N D : Nat)
    (hN : 0 < N) :
    (retry_operation (fun _ =>
        (Except.error (PyErr.malformedArgument msg) : Except PyErr Unit)) N D).calls = N ∧
    (retry_operation (fun _ =>
        (Except.error (PyErr.malformedArgument msg) : Except PyErr Unit)) N D).result
      = RetryResult.raised (PyErr.malformedArgument msg) := by
  obtain ⟨n, rfl⟩ : ∃ n, N = n + 1 := ⟨N - 1, by omega⟩
  have h := retryLoop_const_error
    (fun _ => (Except.error (PyErr.malformedArgument msg) : Except PyErr Unit))
    (fun _ => PyErr.malformedArgument msg) (fun _ => rfl) D n 0
  exact ⟨by simpa [retry_operation] using h.2, by simpa [retry_operation] using h.1⟩

/-- C4 amended witness: an add whose backend always raises a
malformed-argument error is called three times under the default policy
and the error is raised only at the end. -/
theorem c4_amended_all_errors_retried_witness :
    (retry_operation (fun _ =>
        (Except.error (PyErr.malformedArgument "empty content") : Except PyErr Unit)) 3 1000).calls = 3 ∧
    (retry_operation (fun _ =>
        (Except.error (PyErr.malformedArgument "empty content") : Except PyErr Unit)) 3 1000).result
      = RetryResult.raised (PyErr.malformedArgument "empty content") :=
  c4_amended_all_errors_retried "empty content" 3 1000 (by decide)

/-- C5 counterexample: not every backend call for the five claimed
operations goes through the retry wrapper — `get_memory_stats` in
`main_render.py` performs its list-all call directly
(`mem0_client.get_all` with no `retry_operation`), so the uniform-policy
claim fails over the transcribed call-site table. -/
theorem c5_counterexample_direct_call_site :
    callSites.contains ⟨"render", "get_memory_stats", BackendOp.getAll, false, 1, 0⟩ = true ∧
    (callSites.all (fun s =>
      s.wrapped && (s.maxRetries == 3) && (s.delayMs == 1000))) = false := by
  decide

/-- C5 (amended): the uniform retry policy (3 attempts, 1s initial delay,
doubling) holds for every backend call of the `Mem0ClientWrapper` adapter,
which serves all `MemoryTools` registrations; the basic variant
(`src/main.py`) never retries; in the render variant most tools use the
default policy but `check_relevant_memories` uses a reduced policy
(2 attempts, 0.5s) and `advanced_search_memories`, `get_memory_stats`,
`analyze_memories`, `export_memories` and `import_memories` call the
backend directly.  Under the policy, the sleeps of a failing call are
1s then 2s (doubling backoff). -/
theorem c5_amended_policy_by_variant :
    ((callSites.filter (fun s => s.variant == "wrapper")).all
        (fun s => s.wrapped && s.maxRetries == 3 && s.delayMs == 1000)) = true ∧
    ((callSites.filter (fun s => s.variant == "basic")).all
        (fun s => !s.wrapped)) = true ∧
    ((callSites.filter (fun s => s.variant == "render" && s.wrapped &&
        !(s.tool == "check_relevant_memories"))).all
      (fun s => s.maxRetries == 3 && s.delayMs == 1000)) = true ∧
    callSites.contains ⟨"render", "check_relevant_memories", BackendOp.search, true, 2, 500⟩ = true ∧
    ((callSites.filter (fun s => s.variant == "render" && !s.wrapped)).map
        CallSite.tool)
      = ["advanced_search_memories", "advanced_search_memories",
         "get_memory_stats", "analyze_memories", "export_memories",
         "import_memories", "import_memories"] ∧
    (retry_operation (fun _ =>
        (Except.error (PyErr.exc "backend down") : Except PyErr Unit)) 3 1000).sleeps
      = [1000, 2000] := by
  decide

/-- C1: evaluation of the code at the failing input.  The `app` of
`src/main_render.py` mounts `/messages/` directly on the SSE transport
post handler with no denylist check in front, so a POST carrying the
denylisted stale session identifier goes through the ordinary session
lookup and is answered 404 (the id is never in a fresh session map) — not
the 410 `session_expired` short-circuit that the claim and the tests
(`src/test_stale_session.py`, `src/test_local_interceptor.py`) expect. -/
theorem c1_stale_session_not_intercepted :
    renderAppDispatch [] "POST" "/messages/" (some STALE_SESSION_ID)
      = (404, "Could not find session") ∧
    (renderAppDispatch [] "POST" "/messages/" (some STALE_SESSION_ID)).1 ≠ 410 := by
  decide

/-- C7 counterexample: the render variant health body has exactly the
keys `status` and `service` — no `timestamp` — and the basic variant has
no liveness route at all, so the every-variant three-field claim fails. -/
theorem c7_counterexample_render_health_missing_timestamp :
    renderHealthBody.map Prod.fst = ["status", "service"] ∧
    ((renderHealthBody.map Prod.fst).contains "timestamp") = false ∧
    basicAppRoutes.contains "/health" = false := by
  decide

/-- C7 (amended): GET on `/` and `/health` of the factory variant returns
a JSON object with exactly the fields `status`, `service`, `timestamp`;
the render variant serves the same routes with exactly `status` and
`service`; the basic variant registers no liveness routes. -/
theorem c7_amended_health_fields_by_variant (ts : String) :
    (factoryHealthBody ts).map Prod.fst = ["status", "service", "timestamp"] ∧
    renderHealthBody.map Prod.fst = ["status", "service"] ∧
    basicAppRoutes = ["/sse", "/messages/"] ∧
    ((renderAppRoutes.map Prod.fst).contains "/") = true ∧
    ((renderAppRoutes.map Prod.fst).contains "/health") = true ∧
    ((factoryAppRoutes.map Prod.fst).contains "/") = true ∧
    ((factoryAppRoutes.map Prod.fst).contains "/health") = true := by
  exact ⟨rfl, by decide, by decide, by decide, by decide, by decide, by decide⟩

/-! ## Claims C6 and C8: tool handler behaviour -/

theorem exceptOk_pyTryE (body : Except PyErr String)
    (handler : PyErr → String) : exceptOk (pyTryE body handler) = true := by
  cases body <;> rfl

theorem listPrefixOf_refl_append (l t : PyStr) :
    listPrefixOf l (l ++ t) = true := by
  induction l with
  | nil => rfl
  | cons a as ih => simp [listPrefixOf, ih]

theorem strStartsWith_append (p r : String) :
    strStartsWith p (p ++ r) = true := by
  have : (p ++ r).data = p.data ++ r.data := String.data_append p r
  rw [strStartsWith, this]
  exact listPrefixOf_refl_append p.data r.data

/-- The string a handler delivered to the transport (tools always return
normally, so the error branch is never read). -/
def okString : Except PyErr String → String
  | .ok s => s
  | .error _ => ""

/-- C6: every registered tool handler of every server variant — the three
basic tools of `src/main.py`, the eleven unified tools of
`src/src/tools/memory_tools.py` and the twelve tools of
`src/main_render.py` — returns a string payload for every input and every
backend behaviour, including backends that raise on every call; no
exception ever propagates to the transport, and a failing backend
produces the human-readable error message (shown for the cited
`add_memory`). -/
theorem c6_tool_handlers_never_raise :
    (∀ text b, exceptOk (basicAddMemory text b) = true) ∧
    (∀ b, exceptOk (basicGetAllMemories b) = true) ∧
    (∀ q b, exceptOk (basicSearchMemories q b) = true) ∧
    (∀ text b, exceptOk (uAddMemory text b) = true) ∧
    (∀ b, exceptOk (uGetAllMemories b) = true) ∧
    (∀ q b, exceptOk (uSearchMemories q b) = true) ∧
    (∀ i c b, exceptOk (uUpdateMemory i c b) = true) ∧
    (∀ i b, exceptOk (uDeleteMemory i b) = true) ∧
    (∀ q c l s b, exceptOk (uAdvancedSearch q c l s b) = true) ∧
    (∀ b, exceptOk (uGetMemoryStats b) = true) ∧
    (∀ b, exceptOk (uAnalyzeMemories b) = true) ∧
    (∀ c b, exceptOk (uGetMemoriesByCategory c b) = true) ∧
    (∀ m b, exceptOk (uExportMemories m b) = true) ∧
    (∀ t b, exceptOk (uCheckRelevantMemories t b) = true) ∧
    (∀ t b, exceptOk (rCheckRelevantMemories t b) = true) ∧
    (∀ t b, exceptOk (rAddMemory t b) = true) ∧
    (∀ b, exceptOk (rGetAllMemories b) = true) ∧
    (∀ q b, exceptOk (rSearchMemories q b) = true) ∧
    (∀ q c l s b, exceptOk (rAdvancedSearch q c l s b) = true) ∧
    (∀ i c b, exceptOk (rUpdateMemory i c b) = true) ∧
    (∀ i b, exceptOk (rDeleteMemory i b) = true) ∧
    (∀ b, exceptOk (rGetMemoryStats b) = true) ∧
    (∀ b, exceptOk (rAnalyzeMemories b) = true) ∧
    (∀ c b, exceptOk (rGetMemoriesByCategory c b) = true) ∧
    (∀ m b, exceptOk (rExportMemories m b) = true) ∧
    (∀ p s b, exceptOk (rImportMemories p s b) = true) ∧
    (∀ text e, uAddMemory text (mkAddBackend (fun _ => Except.error e))
        = Except.ok ("Error adding to memory: " ++ pyErrStr e)) := by
  refine ⟨fun _ _ => exceptOk_pyTryE _ _, fun _ => exceptOk_pyTryE _ _,
    fun _ _ => exceptOk_pyTryE _ _, fun _ _ => exceptOk_pyTryE _ _,
    fun _ => exceptOk_pyTryE _ _, fun _ _ => exceptOk_pyTryE _ _,
    fun _ _ _ => exceptOk_pyTryE _ _, fun _ _ => exceptOk_pyTryE _ _,
    fun _ _ _ _ _ => exceptOk_pyTryE _ _, fun _ => exceptOk_pyTryE _ _,
    fun _ => exceptOk_pyTryE _ _, fun _ _ => exceptOk_pyTryE _ _,
    fun _ _ => exceptOk_pyTryE _ _, fun _ _ => exceptOk_pyTryE _ _,
    fun _ _ => exceptOk_pyTryE _ _, fun _ _ => exceptOk_pyTryE _ _,
    fun _ => exceptOk_pyTryE _ _, fun _ _ => exceptOk_pyTryE _ _,
    fun _ _ _ _ _ => exceptOk_pyTryE _ _, fun _ _ _ => exceptOk_pyTryE _ _,
    fun _ _ => exceptOk_pyTryE _ _, fun _ => exceptOk_pyTryE _ _,
    fun _ => exceptOk_pyTryE _ _, fun _ _ => exceptOk_pyTryE _ _,
    fun _ _ => exceptOk_pyTryE _ _, fun _ _ _ => exceptOk_pyTryE _ _,
    fun _ _ => rfl⟩

/-- C8 counterexample: in the render variant a successful add (backend
response without an `id` attribute, content `hello` with no category
keyword) returns `Memory stored successfully.`, which does not begin with
`Successfully added` as the claim requires of every variant. -/
theorem c8_counterexample_render_add_success_string :
    rAddMemory "hello" (mkAddBackend (fun _ => Except.ok none))
      = Except.ok "Memory stored successfully." ∧
    strStartsWith "Successfully added" "Memory stored successfully." = false := by
  constructor
  · rfl
  · decide

/-- C8 (amended): when the backend add call succeeds, the basic variant
and the unified tools return exactly
`Successfully added to memory: <text>`; the render variant instead
returns a string beginning `Successfully stored memory with ID: ` when
the response has an id, and one beginning `Memory stored successfully`
otherwise. -/
theorem c8_amended_add_success_strings (text rid : String) :
    basicAddMemory text (mkAddBackend (fun _ => Except.ok (some rid)))
      = Except.ok ("Successfully added to memory: " ++ text) ∧
    uAddMemory text (mkAddBackend (fun _ => Except.ok (some rid)))
      = Except.ok ("Successfully added to memory: " ++ text) ∧
    strStartsWith "Successfully stored memory with ID: "
      (okString (rAddMemory text (mkAddBackend (fun _ => Except.ok (some rid)))))
      = true ∧
    strStartsWith "Memory stored successfully"
      (okString (rAddMemory text (mkAddBackend (fun _ => Except.ok none))))
      = true := by
  refine ⟨rfl, rfl, ?_, ?_⟩
  · have h : okString (rAddMemory text
        (mkAddBackend (fun _ => Except.ok (some rid))))
        = "Successfully stored memory with ID: " ++
          (rid ++
            ((if categorize_memory text.data ≠ ["other"] then
                " (Categories: " ++
                  String.intercalate ", " (categorize_memory text.data) ++ ")"
              else "") ++
              ". The information has been indexed and can be retrieved later.")) := by
      show ("Successfully stored memory with ID: " ++ rid ++ _ ++ _ : String) = _
      simp [String.append_assoc]
    rw [h]
    exact strStartsWith_append _ _
  · have h : okString (rAddMemory text (mkAddBackend (fun _ => Except.ok none)))
        = "Memory stored successfully" ++
          ((if categorize_memory text.data ≠ ["other"] then
              " (Categories: " ++
                String.intercalate ", " (categorize_memory text.data) ++ ")"
            else "") ++ ".") := by
      show ("Memory stored successfully" ++ _ ++ "." : String) = _
      simp [String.append_assoc]
    rw [h]
    exact strStartsWith_append _ _

/-! ## Lemmas for claim C10 (tag round-trip) -/

theorem word_not_space (c : Char) (h : isWordChar c = true) :
    isSpaceChar c = false := by
  by_contra hs
  have hs2 : isSpaceChar c = true := by
    cases hx : isSpaceChar c
    · exact absurd hx hs
    · rfl
  simp only [isSpaceChar, Bool.or_eq_true, beq_iff_eq] at hs2
  rcases hs2 with ((((h1 | h1) | h1) | h1) | h1) | h1 <;>
    (subst h1; exact absurd h (by decide))

theorem word_ne_hash (c : Char) (h : isWordChar c = true) : (c == '#') = false := by
  cases hx : c == '#'
  · rfl
  · have : c = '#' := by simpa using hx
    subst this
    exact absurd h (by decide)

theorem takeWhile_all_of (p : Char → Bool) (l : PyStr)
    (hl : ∀ c ∈ l, p c = true) : l.takeWhile p = l := by
  induction l with
  | nil => rfl
  | cons a t ih =>
    rw [List.takeWhile_cons, hl a (by simp)]
    simp only [ite_true]
    rw [ih (fun c hc => hl c (by simp [hc]))]

theorem dropWhile_all_of (p : Char → Bool) (l : PyStr)
    (hl : ∀ c ∈ l, p c = true) : l.dropWhile p = [] := by
  induction l with
  | nil => rfl
  | cons a t ih =>
    rw [List.dropWhile_cons, hl a (by simp)]
    simp only [ite_true]
    exact ih (fun c hc => hl c (by simp [hc]))

theorem takeWhile_append_stop (p : Char → Bool) (l : PyStr) (x : Char)
    (m : PyStr) (hl : ∀ c ∈ l, p c = true) (hx : p x = false) :
    (l ++ x :: m).takeWhile p = l := by
  induction l with
  | nil => simp [List.takeWhile_cons, hx]
  | cons a t ih =>
    rw [List.cons_append, List.takeWhile_cons, hl a (by simp)]
    simp only [ite_true]
    rw [ih (fun c hc => hl c (by simp [hc]))]

theorem dropWhile_append_stop (p : Char → Bool) (l : PyStr) (x : Char)
    (m : PyStr) (hl : ∀ c ∈ l, p c = true) (hx : p x = false) :
    (l ++ x :: m).dropWhile p = x :: m := by
  induction l with
  | nil => simp [List.dropWhile_cons, hx]
  | cons a t ih =>
    rw [List.cons_append, List.dropWhile_cons, hl a (by simp)]
    simp only [ite_true]
    exact ih (fun c hc => hl c (by simp [hc]))

theorem tagsBody_cons (c : Char) (rest : PyStr) :
    tagsBody (c :: rest) =
      (if c == '#' then
        if (rest.takeWhile isWordChar).isEmpty then false
        else if (rest.dropWhile isWordChar).isEmpty then true
        else
          if ((rest.dropWhile isWordChar).takeWhile isSpaceChar).isEmpty then false
          else tagsBody ((rest.dropWhile isWordChar).dropWhile isSpaceChar)
      else false) := by
  rw [tagsBody]

theorem tagsBody_chars_aux :
    ∀ (n : Nat) (l : PyStr), l.length ≤ n → tagsBody l = true →
      ∀ c ∈ l, c = '#' ∨ isWordChar c = true ∨ isSpaceChar c = true := by
  intro n
  induction n with
  | zero =>
    intro l hl ht
    have hnil : l = [] := List.eq_nil_of_length_eq_zero (Nat.le_zero.mp hl)
    subst hnil
    rw [tagsBody] at ht
    exact absurd ht (by simp)
  | succ n ih =>
    intro l hl ht c hc
    cases l with
    | nil => exact absurd hc (by simp)
    | cons c0 rest =>
      rw [tagsBody_cons] at ht
      by_cases h0 : (c0 == '#') = true
      · have hc0 : c0 = '#' := by simpa using h0
        rw [h0] at ht
        simp only [if_true] at ht
        by_cases hw : (rest.takeWhile isWordChar).isEmpty
        · rw [if_pos hw] at ht
          exact absurd ht (by simp)
        · rw [if_neg hw] at ht
          by_cases hr : (rest.dropWhile isWordChar).isEmpty
          · rcases List.mem_cons.mp hc with rfl | hcr
            · exact Or.inl hc0
            · right; left
              have hre : rest.dropWhile isWordChar = [] := by
                simpa using hr
              have hrw : rest = rest.takeWhile isWordChar := by
                conv_lhs => rw [← List.takeWhile_append_dropWhile (p := isWordChar) (l := rest)]
                rw [hre, List.append_nil]
              exact List.mem_takeWhile_imp (hrw ▸ hcr)
          · rw [if_neg hr] at ht
            by_cases hsp : ((rest.dropWhile isWordChar).takeWhile isSpaceChar).isEmpty
            · rw [if_pos hsp] at ht
              exact absurd ht (by simp)
            · rw [if_neg hsp] at ht
              rcases List.mem_cons.mp hc with rfl | hcr
              · exact Or.inl hc0
              · have hrest : rest =
                    rest.takeWhile isWordChar ++ rest.dropWhile isWordChar :=
                  (List.takeWhile_append_dropWhile isWordChar rest).symm
                rcases List.mem_append.mp (hrest ▸ hcr) with hcw | hcd
                · exact Or.inr (Or.inl (List.mem_takeWhile_imp hcw))
                · have hr2 : rest.dropWhile isWordChar =
                      (rest.dropWhile isWordChar).takeWhile isSpaceChar ++
                        (rest.dropWhile isWordChar).dropWhile isSpaceChar :=
                    (List.takeWhile_append_dropWhile isSpaceChar
                      (rest.dropWhile isWordChar)).symm
                  rcases List.mem_append.mp (hr2 ▸ hcd) with hcs | hc2
                  · exact Or.inr (Or.inr (List.mem_takeWhile_imp hcs))
                  · have hlen : ((rest.dropWhile isWordChar).dropWhile isSpaceChar).length ≤ n := by
                      have a1 := dropWhile_length_le isSpaceChar (rest.dropWhile isWordChar)
                      have a2 := dropWhile_length_le isWordChar rest
                      simp only [List.length_cons] at hl
                      omega
                    exact ih _ hlen ht c hc2
      · rw [if_neg (by simpa using h0)] at ht
        exact absurd ht (by simp)

theorem tagsBody_chars (l : PyStr) (ht : tagsBody l = true) :
    ∀ c ∈ l, c = '#' ∨ isWordChar c = true ∨ isSpaceChar c = true :=
  tagsBody_chars_aux l.length l (Nat.le_refl _) ht

theorem matchAt_cons (c : Char) (rest : PyStr) :
    matchAt (c :: rest) =
      (if c == '[' then
        if rest.getLast? == some ']' then
          if tagsBody rest.dropLast then some rest.dropLast else none
        else none
      else none) := by
  rw [matchAt]

theorem matchAt_marker (B : PyStr) (hB : tagsBody B = true) :
    matchAt ('[' :: (B ++ [']'])) = some B := by
  rw [matchAt_cons]
  have h1 : ((B ++ [']']).getLast? == some ']') = true := by
    rw [List.getLast?_concat]
    simp
  have h2 : (B ++ [']']).dropLast = B := List.dropLast_concat
  simp only [beq_self_eq_true, if_true, h1, h2, hB, ite_true]

theorem matchAt_early_none (p2 B : PyStr) (hne : p2 ≠ []) :
    matchAt (p2 ++ '[' :: (B ++ [']'])) = none := by
  cases p2 with
  | nil => exact absurd rfl hne
  | cons y t2 =>
    rw [List.cons_append, matchAt_cons]
    by_cases hy : (y == '[') = true
    · rw [hy]
      simp only [if_true]
      have hshape : t2 ++ '[' :: (B ++ [']']) = (t2 ++ '[' :: B) ++ [']'] := by
        simp
      rw [hshape, List.getLast?_concat, List.dropLast_concat]
      have hfalse : tagsBody (t2 ++ '[' :: B) = false := by
        cases hx : tagsBody (t2 ++ '[' :: B)
        · rfl
        · exfalso
          have hmem : '[' ∈ t2 ++ '[' :: B := by simp
          rcases tagsBody_chars _ hx '[' hmem with h | h | h
          · exact absurd h (by decide)
          · exact absurd h (by decide)
          · exact absurd h (by decide)
      rw [hfalse]
      simp
    · rw [if_neg (by simpa using hy)]

theorem findFrom_cons (c : Char) (t : PyStr) (i : Nat) :
    findFrom (c :: t) i = match matchAt (c :: t) with
      | some b => some (i, b)
      | none => findFrom t (i + 1) := by
  rw [findFrom]

theorem findFrom_skip (q : PyStr) :
    ∀ (p : PyStr) (i : Nat),
      (∀ p1 p2 : PyStr, p = p1 ++ p2 → p2 ≠ [] → matchAt (p2 ++ q) = none) →
      findFrom (p ++ q) i = findFrom q (i + p.length) := by
  intro p
  induction p with
  | nil =>
    intro i h
    simp
  | cons x t ih =>
    intro i h
    have h0 : matchAt ((x :: t) ++ q) = none := h [] (x :: t) rfl (by simp)
    simp only [List.cons_append] at h0
    rw [List.cons_append, findFrom_cons, h0]
    show findFrom (t ++ q) (i + 1) = findFrom q (i + (x :: t).length)
    have step := ih (i + 1) (fun p1 p2 hp hne => h (x :: p1) p2 (by simp [hp]) hne)
    rw [step]
    congr 1
    simp only [List.length_cons]
    omega

theorem tagsJoin_cons_head (c : String) (cs : List String) :
    ∃ t, tagsJoin (c :: cs) = '#' :: t := by
  cases cs with
  | nil => exact ⟨c.data, rfl⟩
  | cons c2 cs2 => exact ⟨c.data ++ ' ' :: tagsJoin (c2 :: cs2), rfl⟩

theorem tagsBody_tagsJoin :
    ∀ (cats : List String), cats ≠ [] →
      (∀ c ∈ cats, c.data ≠ [] ∧ ∀ ch ∈ c.data, isWordChar ch = true) →
      tagsBody (tagsJoin cats) = true := by
  intro cats
  induction cats with
  | nil => intro h; exact absurd rfl h
  | cons c cs ih =>
    intro _ hw
    have hc := hw c (by simp)
    cases cs with
    | nil =>
      show tagsBody ('#' :: c.data) = true
      rw [tagsBody_cons]
      have hwt : c.data.takeWhile isWordChar = c.data :=
        takeWhile_all_of _ _ hc.2
      have hwd : c.data.dropWhile isWordChar = [] :=
        dropWhile_all_of _ _ hc.2
      simp [hwt, hwd, hc.1]
    | cons c2 cs2 =>
      show tagsBody ('#' :: (c.data ++ ' ' :: tagsJoin (c2 :: cs2))) = true
      rw [tagsBody_cons]
      have hwt : (c.data ++ ' ' :: tagsJoin (c2 :: cs2)).takeWhile isWordChar
          = c.data :=
        takeWhile_append_stop _ _ _ _ hc.2 (by decide)
      have hwd : (c.data ++ ' ' :: tagsJoin (c2 :: cs2)).dropWhile isWordChar
          = ' ' :: tagsJoin (c2 :: cs2) :=
        dropWhile_append_stop _ _ _ _ hc.2 (by decide)
      rw [hwt, hwd]
      obtain ⟨t, ht⟩ := tagsJoin_cons_head c2 cs2
      have hdropsp : (' ' :: tagsJoin (c2 :: cs2)).dropWhile isSpaceChar
          = tagsJoin (c2 :: cs2) := by
        rw [List.dropWhile_cons]
        simp only [show isSpaceChar ' ' = true from rfl, ite_true]
        rw [ht, List.dropWhile_cons]
        simp only [show isSpaceChar '#' = false by decide]
        simp
      have hrec : tagsBody (tagsJoin (c2 :: cs2)) = true :=
        ih (by simp) (fun x hx => hw x (by simp [hx]))
      simp only [beq_self_eq_true, if_true, hc.1, List.isEmpty_cons,
        List.takeWhile_cons, show isSpaceChar ' ' = true from rfl, ite_true,
        hdropsp, hrec]
      have : c.data.isEmpty = false := by
        cases hd : c.data
        · exact absurd hd hc.1
        · rfl
      simp [this]

theorem splitWs_nil : splitWs [] = [] := by
  rw [splitWs]

theorem splitWs_cons (c : Char) (rest : PyStr) :
    splitWs (c :: rest) =
      (if isSpaceChar c then splitWs rest
       else (c :: rest.takeWhile (fun d => !isSpaceChar d)) ::
         splitWs (rest.dropWhile (fun d => !isSpaceChar d))) := by
  rw [splitWs]

theorem splitWs_token_only (tok : PyStr) (hne : tok ≠ [])
    (htok : ∀ c ∈ tok, isSpaceChar c = false) : splitWs tok = [tok] := by
  cases tok with
  | nil => exact absurd rfl hne
  | cons c t =>
    rw [splitWs_cons]
    have hall : ∀ d ∈ t, (!isSpaceChar d) = true := by
      intro d hd
      rw [htok d (by simp [hd])]
      rfl
    rw [if_neg (by rw [htok c (by simp)]; simp)]
    rw [takeWhile_all_of _ _ hall, dropWhile_all_of _ _ hall, splitWs_nil]

theorem splitWs_token_cons (tok : PyStr) (rest : PyStr) (hne : tok ≠ [])
    (htok : ∀ c ∈ tok, isSpaceChar c = false) :
    splitWs (tok ++ ' ' :: rest) = tok :: splitWs rest := by
  cases tok with
  | nil => exact absurd rfl hne
  | cons c t =>
    rw [List.cons_append, splitWs_cons]
    have hall : ∀ d ∈ t, (!isSpaceChar d) = true := by
      intro d hd
      rw [htok d (by simp [hd])]
      rfl
    rw [if_neg (by rw [htok c (by simp)]; simp)]
    rw [takeWhile_append_stop _ _ _ _ hall (by decide),
      dropWhile_append_stop _ _ _ _ hall (by decide)]
    rw [splitWs_cons]
    rw [if_pos (by decide)]

theorem splitWs_tagsJoin :
    ∀ (cats : List String),
      (∀ c ∈ cats, c.data ≠ [] ∧ ∀ ch ∈ c.data, isWordChar ch = true) →
      splitWs (tagsJoin cats) = cats.map (fun c => '#' :: c.data) := by
  intro cats
  induction cats with
  | nil =>
    intro _
    show splitWs [] = []
    exact splitWs_nil
  | cons c cs ih =>
    intro hw
    have hc := hw c (by simp)
    have htok : ∀ ch ∈ '#' :: c.data, isSpaceChar ch = false := by
      intro ch hch
      rcases List.mem_cons.mp hch with rfl | hch2
      · decide
      · exact word_not_space ch (hc.2 ch hch2)
    cases cs with
    | nil =>
      show splitWs ('#' :: c.data) = [('#' :: c.data)]
      exact splitWs_token_only _ (by simp) htok
    | cons c2 cs2 =>
      show splitWs (('#' :: c.data) ++ ' ' :: tagsJoin (c2 :: cs2)) = _
      rw [splitWs_token_cons _ _ (by simp) htok]
      rw [ih (fun x hx => hw x (by simp [hx]))]
      rfl

theorem pyStrip_append_space (C : PyStr)
    (h1 : C.dropWhile isSpaceChar = C)
    (h2 : C.reverse.dropWhile isSpaceChar = C.reverse) :
    pyStrip (C ++ [' ']) = C := by
  cases C with
  | nil => rfl
  | cons c t =>
    have hc : isSpaceChar c = false := by
      rw [List.dropWhile_cons] at h1
      by_cases hcs : isSpaceChar c = true
      · rw [hcs] at h1
        simp only [ite_true] at h1
        have hlen := congrArg List.length h1
        simp only [List.length_cons] at hlen
        have hle := dropWhile_length_le isSpaceChar t
        omega
      · cases hx : isSpaceChar c
        · rfl
        · exact absurd hx hcs
    unfold pyStrip
    have hstep : ((c :: t) ++ [' ']).dropWhile isSpaceChar = (c :: t) ++ [' '] := by
      rw [List.cons_append, List.dropWhile_cons, hc]
      simp
    rw [hstep]
    have hrev : ((c :: t) ++ [' ']).reverse = ' ' :: (c :: t).reverse := by
      simp
    rw [hrev, List.dropWhile_cons]
    simp only [show isSpaceChar ' ' = true from rfl, ite_true]
    rw [h2]
    simp

theorem stripHash_hash_word (c : String) (hne : c.data ≠ [])
    (hw : ∀ ch ∈ c.data, isWordChar ch = true) :
    stripHash ('#' :: c.data) = c.data := by
  unfold stripHash
  have hstep1 : ('#' :: c.data).dropWhile (fun ch => ch == '#')
      = c.data.dropWhile (fun ch => ch == '#') := by
    rw [List.dropWhile_cons]
    simp
  rw [hstep1]
  cases hd : c.data with
  | nil => exact absurd hd hne
  | cons d ds =>
    have hdw : isWordChar d = true := hw d (by rw [hd]; simp)
    have hstep2 : (d :: ds).dropWhile (fun ch => ch == '#') = d :: ds := by
      rw [List.dropWhile_cons, word_ne_hash d hdw]
      simp
    rw [hstep2]
    cases hr : (d :: ds).reverse with
    | nil => simp at hr
    | cons e es =>
      have he : e ∈ c.data := by
        rw [hd]
        refine List.mem_reverse.mp ?_
        rw [hr]
        simp
      have hew : isWordChar e = true := hw e he
      rw [List.dropWhile_cons]
      simp only [word_ne_hash e hew, Bool.false_eq_true, if_false]
      rw [← hr, List.reverse_reverse]

theorem stringMkData (s : String) : String.mk s.data = s := by
  cases s
  rfl

theorem mapStripHashTags :
    ∀ (l : List String),
      (∀ c ∈ l, c.data ≠ [] ∧ ∀ ch ∈ c.data, isWordChar ch = true) →
      l.map ((fun t => String.mk (stripHash t)) ∘ (fun c => '#' :: c.data)) = l := by
  intro l
  induction l with
  | nil => intro _; rfl
  | cons a t ih =>
    intro h
    have ha := h a (by simp)
    simp only [List.map_cons, Function.comp]
    rw [ih (fun x hx => h x (by simp [hx]))]
    rw [stripHash_hash_word a ha.1 ha.2, stringMkData]

/-- C10: for content with no leading or trailing whitespace that does not
itself end in a bracketed `[#...]` tag block, and any non-empty category
list other than `["other"]` whose elements are non-empty strings of word
characters, `extract_tags` recovers exactly the content and categories
that `format_with_tags` combined. -/
theorem c10_format_extract_roundtrip (content : PyStr) (cats : List String)
    (hlead : content.dropWhile isSpaceChar = content)
    (htrail : content.reverse.dropWhile isSpaceChar = content.reverse)
    (hne : cats ≠ []) (hno : cats ≠ ["other"])
    (hword : ∀ c ∈ cats, c.data ≠ [] ∧ ∀ ch ∈ c.data, isWordChar ch = true)
    (hnotag : reSearchTagBlock content = none) :
    extract_tags (format_with_tags content cats) = (content, cats) := by
  have hfmt : format_with_tags content cats =
      (content ++ [' ']) ++ ('[' :: (tagsJoin cats ++ [']'])) := by
    unfold format_with_tags
    split
    · simp
    · rename_i hcond
      exfalso
      apply hcond
      simp only [Bool.and_eq_true, Bool.not_eq_true', decide_eq_true_eq]
      constructor
      · cases cats with
        | nil => exact absurd rfl hne
        | cons a l => rfl
      · exact hno
  have hBvalid : tagsBody (tagsJoin cats) = true :=
    tagsBody_tagsJoin cats hne hword
  have hmatch : matchAt ('[' :: (tagsJoin cats ++ [']'])) = some (tagsJoin cats) :=
    matchAt_marker _ hBvalid
  have hskip : findFrom ((content ++ [' ']) ++ ('[' :: (tagsJoin cats ++ [']']))) 0
      = findFrom ('[' :: (tagsJoin cats ++ [']'])) (0 + (content ++ [' ']).length) :=
    findFrom_skip _ _ _ (fun p1 p2 hp hne2 => matchAt_early_none p2 (tagsJoin cats) hne2)
  have hfind : findFrom ((content ++ [' ']) ++ ('[' :: (tagsJoin cats ++ [']']))) 0
      = some (content.length + 1, tagsJoin cats) := by
    rw [hskip, findFrom_cons, hmatch]
    show some (0 + (content ++ [' ']).length, tagsJoin cats)
      = some (content.length + 1, tagsJoin cats)
    simp
  have hlastfmt : ((content ++ [' ']) ++ ('[' :: (tagsJoin cats ++ [']']))).getLast?
      = some ']' := by
    have hshape : (content ++ [' ']) ++ ('[' :: (tagsJoin cats ++ [']']))
        = ((content ++ [' ']) ++ ('[' :: tagsJoin cats)) ++ [']'] := by
      simp
    rw [hshape, List.getLast?_concat]
  have hsearch : reSearchTagBlock (format_with_tags content cats)
      = some (content.length + 1, tagsJoin cats) := by
    unfold reSearchTagBlock
    rw [hfmt, hlastfmt]
    simp only [show ((some ']' == some '\n')) = false by decide,
      Bool.false_eq_true, if_false]
    exact hfind
  unfold extract_tags
  rw [hsearch]
  show (pyStrip ((format_with_tags content cats).take (content.length + 1)),
      (splitWs (tagsJoin cats)).map (fun t => String.mk (stripHash t)))
    = (content, cats)
  have htake : (format_with_tags content cats).take (content.length + 1)
      = content ++ [' '] := by
    rw [hfmt]
    have hlen2 : content.length + 1 = (content ++ [' ']).length := by simp
    rw [hlen2, List.take_left]
  rw [htake, pyStrip_append_space content hlead htrail]
  rw [splitWs_tagsJoin cats hword, List.map_map, mapStripHashTags cats hword]

/-- C10 witness: a concrete round-trip through format and extract. -/
theorem c10_format_extract_roundtrip_witness :
    extract_tags (format_with_tags "hello world".data ["work", "personal_info"])
      = ("hello world".data, ["work", "personal_info"]) :=
  c10_format_extract_roundtrip "hello world".data ["work", "personal_info"]
    (by decide) (by decide) (by decide) (by decide) (by decide) (by decide)

/-! ## Lemmas for claim C9 (categorize invariant) -/

theorem splitWs_decomp_aux :
    ∀ (n : Nat) (s : PyStr), s.length ≤ n → ∀ w ∈ splitWs s,
      (∃ a b, s = a ++ w ++ b) ∧ ∀ c ∈ w, isSpaceChar c = false := by
  intro n
  induction n with
  | zero =>
    intro s hs w hw
    have hnil : s = [] := List.eq_nil_of_length_eq_zero (Nat.le_zero.mp hs)
    subst hnil
    rw [splitWs_nil] at hw
    exact absurd hw (by simp)
  | succ n ih =>
    intro s hs w hw
    cases s with
    | nil =>
      rw [splitWs_nil] at hw
      exact absurd hw (by simp)
    | cons c rest =>
      rw [splitWs_cons] at hw
      simp only [List.length_cons] at hs
      by_cases hc : isSpaceChar c = true
      · rw [if_pos hc] at hw
        obtain ⟨⟨a, b, hab⟩, hchars⟩ := ih rest (by omega) w hw
        exact ⟨⟨c :: a, b, by simp [hab]⟩, hchars⟩
      · have hcf : isSpaceChar c = false := by
          cases hx : isSpaceChar c
          · rfl
          · exact absurd hx hc
        rw [if_neg hc] at hw
        rcases List.mem_cons.mp hw with rfl | hw2
        · constructor
          · refine ⟨[], rest.dropWhile (fun d => !isSpaceChar d), ?_⟩
            have := List.takeWhile_append_dropWhile (fun d => !isSpaceChar d) rest
            simp [this]
          · intro x hx
            rcases List.mem_cons.mp hx with rfl | hx2
            · exact hcf
            · have := List.mem_takeWhile_imp hx2
              simpa using this
        · have hlen : (rest.dropWhile (fun d => !isSpaceChar d)).length ≤ n := by
            have := dropWhile_length_le (fun d => !isSpaceChar d) rest
            omega
          obtain ⟨⟨a, b, hab⟩, hchars⟩ := ih _ hlen w hw2
          refine ⟨⟨c :: rest.takeWhile (fun d => !isSpaceChar d) ++ a, b, ?_⟩, hchars⟩
          have hrest := List.takeWhile_append_dropWhile (fun d => !isSpaceChar d) rest
          calc c :: rest
              = c :: (rest.takeWhile (fun d => !isSpaceChar d) ++
                  rest.dropWhile (fun d => !isSpaceChar d)) := by rw [hrest]
            _ = c :: rest.takeWhile (fun d => !isSpaceChar d) ++ a ++ w ++ b := by
                rw [hab]; simp

theorem splitWs_decomp (s : PyStr) (w : PyStr) (hw : w ∈ splitWs s) :
    (∃ a b, s = a ++ w ++ b) ∧ ∀ c ∈ w, isSpaceChar c = false :=
  splitWs_decomp_aux s.length s (Nat.le_refl _) w hw

theorem pyNormalize_head_decomp :
    ∀ (w : PyStr), (∀ c ∈ w, isSpaceChar c = false) →
      ∀ (s b : PyStr), pyNormalize s = w ++ b → ∃ b2, s = w ++ b2 := by
  intro w
  induction w with
  | nil => intro _ s b _; exact ⟨s, rfl⟩
  | cons x w2 ih =>
    intro hch s b hs
    cases s with
    | nil => simp [pyNormalize] at hs
    | cons d s2 =>
      have hmap : normalizeChar d :: pyNormalize s2 = x :: (w2 ++ b) := by
        simpa [pyNormalize] using hs
      have hd : normalizeChar d = x := by
        have := congrArg (fun l => List.headD l ' ') hmap
        simpa using this
      have htail : pyNormalize s2 = w2 ++ b := by
        have := congrArg List.tail hmap
        simpa using this
      have hdx : d = x := by
        by_cases hok : (isWordChar d || isSpaceChar d) = true
        · rw [normalizeChar, if_pos hok] at hd
          exact hd
        · rw [normalizeChar, if_neg hok] at hd
          exfalso
          have hxs : isSpaceChar x = false := hch x (by simp)
          rw [← hd] at hxs
          exact absurd hxs (by decide)
      obtain ⟨b2, hb2⟩ := ih (fun c hc => hch c (by simp [hc])) s2 b htail
      exact ⟨b2, by rw [hdx, hb2]; rfl⟩

theorem pyNormalize_substring (s w : PyStr)
    (hch : ∀ c ∈ w, isSpaceChar c = false)
    (hdecomp : ∃ a b, pyNormalize s = a ++ w ++ b) :
    containsSub s w = true := by
  obtain ⟨a, b, hab⟩ := hdecomp
  have hdrop : pyNormalize (s.drop a.length) = w ++ b := by
    have h1 : pyNormalize (s.drop a.length) = (pyNormalize s).drop a.length := by
      simp [pyNormalize, List.map_drop]
    rw [h1, hab]
    have : a ++ w ++ b = a ++ (w ++ b) := by simp
    rw [this, List.drop_left]
  obtain ⟨b2, hb2⟩ := pyNormalize_head_decomp w hch (s.drop a.length) b hdrop
  rw [containsSub_iff]
  refine ⟨s.take a.length, b2, ?_⟩
  conv_lhs => rw [← List.take_append_drop a.length s]
  rw [hb2]
  simp

theorem token_substring (s w : PyStr) (hw : w ∈ splitWs (pyNormalize s)) :
    containsSub s w = true := by
  obtain ⟨hdec, hch⟩ := splitWs_decomp (pyNormalize s) w hw
  exact pyNormalize_substring s w hch hdec

theorem listContainsMem (l : List PyStr) (x : PyStr) :
    l.contains x = true ↔ x ∈ l := by
  induction l with
  | nil => simp
  | cons a t ih =>
    simp only [List.contains_cons, Bool.or_eq_true, beq_iff_eq,
      List.mem_cons, ih]

theorem foldl_add_sum (g : String → Nat) :
    ∀ (l : List String) (n : Nat),
      l.foldl (fun acc kw => acc + g kw) n = n + (l.map g).sum := by
  intro l
  induction l with
  | nil => intro n; simp
  | cons a t ih =>
    intro n
    simp only [List.foldl_cons, List.map_cons, List.sum_cons]
    rw [ih]
    omega

theorem natSumPosIff : ∀ (l : List Nat), 0 < l.sum ↔ ∃ x ∈ l, 0 < x := by
  intro l
  induction l with
  | nil => simp
  | cons a t ih =>
    simp only [List.sum_cons, List.mem_cons]
    constructor
    · intro h
      by_cases ha : 0 < a
      · exact ⟨a, Or.inl rfl, ha⟩
      · have : 0 < t.sum := by omega
        obtain ⟨x, hx, hxp⟩ := ih.mp this
        exact ⟨x, Or.inr hx, hxp⟩
    · rintro ⟨x, hx | hx, hxp⟩
      · subst hx; omega
      · have : 0 < t.sum := ih.mpr ⟨x, hx, hxp⟩
        omega

theorem pointsFor_pos_iff (content : PyStr) (kw : String) :
    0 < pointsFor (categorizeWords content) (pyLower content) kw ↔
      containsSub (pyLower content) kw.data = true := by
  unfold pointsFor
  by_cases h1 : (categorizeWords content).contains kw.data = true
  · rw [h1]
    simp only [ite_true]
    constructor
    · intro _
      have hmem : kw.data ∈ categorizeWords content := (listContainsMem _ _).mp h1
      have hmem2 : kw.data ∈ splitWs (pyNormalize (pyLower content)) := by
        unfold categorizeWords at hmem
        exact (List.mem_filter.mp hmem).1
      exact token_substring (pyLower content) kw.data hmem2
    · intro _; omega
  · have h1f : (categorizeWords content).contains kw.data = false := by
      cases hx : (categorizeWords content).contains kw.data
      · rfl
      · exact absurd hx h1
    rw [h1f]
    simp only [Bool.false_eq_true, if_false]
    by_cases h2 : containsSub (pyLower content) kw.data = true
    · rw [h2]; simp
    · have h2f : containsSub (pyLower content) kw.data = false := by
        cases hx : containsSub (pyLower content) kw.data
        · rfl
        · exact absurd hx h2
      rw [h2f]
      simp

theorem scoreFor_pos_iff (content : PyStr) (kws : List String) :
    0 < scoreFor (categorizeWords content) (pyLower content) kws ↔
      ∃ kw ∈ kws, containsSub (pyLower content) kw.data = true := by
  unfold scoreFor
  rw [foldl_add_sum, Nat.zero_add, natSumPosIff]
  constructor
  · rintro ⟨x, hx, hxp⟩
    obtain ⟨kw, hkw, rfl⟩ := List.mem_map.mp hx
    exact ⟨kw, hkw, (pointsFor_pos_iff content kw).mp hxp⟩
  · rintro ⟨kw, hkw, hsub⟩
    exact ⟨pointsFor (categorizeWords content) (pyLower content) kw,
      List.mem_map.mpr ⟨kw, hkw, rfl⟩, (pointsFor_pos_iff content kw).mpr hsub⟩

/-- The claim side condition: some category keyword occurs as a substring
of the lowercased input. -/
def anyKeywordSub (cl : PyStr) : Bool :=
  CATEGORY_KEYWORDS.any (fun p => p.2.any (fun kw => containsSub cl kw.data))

theorem scores_nil_iff (content : PyStr) :
    categorizeScores content = [] ↔ anyKeywordSub (pyLower content) = false := by
  unfold categorizeScores anyKeywordSub
  rw [List.filterMap_eq_nil_iff]
  constructor
  · intro h
    cases hx : CATEGORY_KEYWORDS.any
        (fun p => p.2.any (fun kw => containsSub (pyLower content) kw.data))
    · rfl
    · exfalso
      obtain ⟨p, hp, hpk⟩ := List.any_eq_true.mp hx
      obtain ⟨kw, hkw, hsub⟩ := List.any_eq_true.mp hpk
      have hscore : 0 < scoreFor (categorizeWords content) (pyLower content) p.2 :=
        (scoreFor_pos_iff content p.2).mpr ⟨kw, hkw, by simpa using hsub⟩
      have := h p hp
      rw [if_pos hscore] at this
      exact absurd this (by simp)
  · intro h p hp
    rw [if_neg]
    intro hscore
    obtain ⟨kw, hkw, hsub⟩ := (scoreFor_pos_iff content p.2).mp hscore
    have : CATEGORY_KEYWORDS.any
        (fun q => q.2.any (fun kw => containsSub (pyLower content) kw.data)) = true :=
      List.any_eq_true.mpr ⟨p, hp, List.any_eq_true.mpr ⟨kw, hkw, by simpa using hsub⟩⟩
    rw [h] at this
    exact absurd this (by simp)

theorem insertDesc_perm (p : String × Nat) :
    ∀ (l : List (String × Nat)), (insertDesc p l).Perm (p :: l) := by
  intro l
  induction l with
  | nil => exact List.Perm.refl _
  | cons q qs ih =>
    rw [insertDesc]
    split
    · exact (ih.cons q).trans (List.Perm.swap p q qs)
    · exact List.Perm.refl _

theorem foldl_insertDesc_perm :
    ∀ (l acc : List (String × Nat)),
      (l.foldl (fun acc p => insertDesc p acc) acc).Perm (l ++ acc) := by
  intro l
  induction l with
  | nil => intro acc; simp
  | cons x xs ih =>
    intro acc
    simp only [List.foldl_cons, List.cons_append]
    have h1 := ih (insertDesc x acc)
    have h2 : (xs ++ insertDesc x acc).Perm (xs ++ x :: acc) :=
      (insertDesc_perm x acc).append_left xs
    exact (h1.trans h2).trans (List.perm_middle)

theorem pySortDesc_perm (l : List (String × Nat)) :
    (pySortDesc l).Perm l := by
  have h := foldl_insertDesc_perm l []
  simpa [pySortDesc] using h

theorem scores_fst_sublist (content : PyStr) :
    ((categorizeScores content).map Prod.fst).Sublist
      (CATEGORY_KEYWORDS.map Prod.fst) := by
  unfold categorizeScores
  generalize CATEGORY_KEYWORDS = L
  induction L with
  | nil => simp
  | cons p t ih =>
    rw [List.filterMap_cons]
    split
    · simpa using ih.cons p.1
    · rename_i v hv
      have hfst : v.1 = p.1 := by
        split at hv
        · injection hv with hv2
          rw [← hv2]
        · exact absurd hv (by simp)
      simp only [List.map_cons, List.map_cons]
      rw [hfst]
      exact ih.cons₂ p.1

theorem scores_mem_pos (content : PyStr) (q : String × Nat)
    (hq : q ∈ categorizeScores content) : 0 < q.2 := by
  unfold categorizeScores at hq
  obtain ⟨p, hp, hpq⟩ := List.mem_filterMap.mp hq
  split at hpq
  · injection hpq with h2
    rw [← h2]
    rename_i hpos
    exact hpos
  · exact absurd hpq (by simp)

theorem foldl_max_choice :
    ∀ (l : List Nat) (a : Nat), l.foldl max a = a ∨ l.foldl max a ∈ l := by
  intro l
  induction l with
  | nil => intro a; exact Or.inl rfl
  | cons x xs ih =>
    intro a
    simp only [List.foldl_cons, List.mem_cons]
    rcases ih (max a x) with h | h
    · rcases max_choice a x with hm | hm
      · exact Or.inl (h.trans hm)
      · exact Or.inr (Or.inl (h.trans hm))
    · exact Or.inr (Or.inr h)

theorem take3_ne_nil (l : List String) (h : l ≠ []) : l.take 3 ≠ [] := by
  cases l with
  | nil => exact absurd rfl h
  | cons a t => simp

theorem categorize_eq_filtered (S : List (String × Nat)) (hne2 : S ≠ [])
    (hFne : ((pySortDesc S).filter
      (fun q => (S.map Prod.snd).foldl max 0 ≤ 2 * q.2)) ≠ []) :
    (let categories := if S.isEmpty then ([] : List String)
       else ((pySortDesc S).filter
         (fun q => (S.map Prod.snd).foldl max 0 ≤ 2 * q.2)).map Prod.fst
     let categories2 := if categories.isEmpty then ["other"] else categories
     categories2.take 3)
    = (((pySortDesc S).filter
        (fun q => (S.map Prod.snd).foldl max 0 ≤ 2 * q.2)).map Prod.fst).take 3 := by
  have hie : S.isEmpty = false := by
    cases hx : S with
    | nil => exact absurd hx hne2
    | cons a t => rfl
  simp only [hie, Bool.false_eq_true, if_false]
  have hmapne : (((pySortDesc S).filter
      (fun q => (S.map Prod.snd).foldl max 0 ≤ 2 * q.2)).map Prod.fst) ≠ [] := by
    intro hx
    exact hFne (List.map_eq_nil_iff.mp hx)
  have hmie : ((((pySortDesc S).filter
      (fun q => (S.map Prod.snd).foldl max 0 ≤ 2 * q.2)).map Prod.fst)).isEmpty
      = false := by
    cases hx : (((pySortDesc S).filter
        (fun q => (S.map Prod.snd).foldl max 0 ≤ 2 * q.2)).map Prod.fst) with
    | nil => exact absurd hx hmapne
    | cons a t => rfl
  simp only [hmie, Bool.false_eq_true, if_false]

/-- C9: `MemoryCategories.categorize` always returns a non-empty list of
at most three distinct names, each a key of `CATEGORY_KEYWORDS` or
`other`, and it returns exactly `["other"]` precisely when no category
keyword occurs as a substring of the lowercased input. -/
theorem c9_categorize_invariant (content : PyStr) :
    categorize content ≠ [] ∧
    (categorize content).length ≤ 3 ∧
    (categorize content).Nodup ∧
    (∀ c ∈ categorize content, c ∈ CATEGORY_KEYWORDS.map Prod.fst ∨ c = "other") ∧
    (categorize content = ["other"] ↔ anyKeywordSub (pyLower content) = false) := by
  by_cases hnil : categorizeScores content = []
  · have hcat : categorize content = ["other"] := by
      simp [categorize, hnil]
    refine ⟨by rw [hcat]; simp, by rw [hcat]; simp, by rw [hcat]; simp, ?_, ?_⟩
    · intro c hc
      rw [hcat] at hc
      right
      simpa using hc
    · exact ⟨fun _ => (scores_nil_iff content).mp hnil, fun _ => hcat⟩
  · have hpos : ∀ q ∈ categorizeScores content, 0 < q.2 :=
      fun q hq => scores_mem_pos content q hq
    have hperm := pySortDesc_perm (categorizeScores content)
    -- the filtered sorted list is non-empty: a maximal element always passes
    have hFne : ((pySortDesc (categorizeScores content)).filter
        (fun q => ((categorizeScores content).map Prod.snd).foldl max 0 ≤ 2 * q.2))
        ≠ [] := by
      obtain ⟨q0, hq0⟩ := List.exists_mem_of_ne_nil _ hnil
      rcases foldl_max_choice ((categorizeScores content).map Prod.snd) 0 with hM | hM
      · -- max of an empty fold start: every element passes
        apply List.ne_nil_of_mem (a := q0)
        rw [List.mem_filter]
        exact ⟨hperm.mem_iff.mpr hq0, by simp [hM]⟩
      · obtain ⟨q1, hq1, hq12⟩ := List.mem_map.mp hM
        apply List.ne_nil_of_mem (a := q1)
        rw [List.mem_filter]
        refine ⟨hperm.mem_iff.mpr hq1, ?_⟩
        rw [hq12]
        simp
        omega
    have hcat : categorize content =
        (((pySortDesc (categorizeScores content)).filter
          (fun q => ((categorizeScores content).map Prod.snd).foldl max 0 ≤ 2 * q.2)).map
            Prod.fst).take 3 :=
      categorize_eq_filtered (categorizeScores content) hnil hFne
    -- membership transport chain
    have hsubl : ((pySortDesc (categorizeScores content)).filter
        (fun q => ((categorizeScores content).map Prod.snd).foldl max 0 ≤ 2 * q.2)).Sublist
          (pySortDesc (categorizeScores content)) := List.filter_sublist _
    have hmem : ∀ c ∈ categorize content, c ∈ CATEGORY_KEYWORDS.map Prod.fst := by
      intro c hc
      rw [hcat] at hc
      have hc2 := (List.take_sublist 3 _).mem hc
      obtain ⟨q, hq, rfl⟩ := List.mem_map.mp hc2
      have hq2 : q ∈ pySortDesc (categorizeScores content) := hsubl.mem hq
      have hq3 : q ∈ categorizeScores content := hperm.mem_iff.mp hq2
      exact (scores_fst_sublist content).mem (List.mem_map.mpr ⟨q, hq3, rfl⟩)
    have hnodup : (categorize content).Nodup := by
      rw [hcat]
      apply List.Nodup.sublist (List.take_sublist 3 _)
      apply List.Nodup.sublist (List.Sublist.map Prod.fst hsubl)
      have hkeys : (CATEGORY_KEYWORDS.map Prod.fst).Nodup := by decide
      have hs : ((categorizeScores content).map Prod.fst).Nodup :=
        hkeys.sublist (scores_fst_sublist content)
      exact ((hperm.map Prod.fst).nodup_iff).mpr hs
    have hne3 : categorize content ≠ [] := by
      rw [hcat]
      apply take3_ne_nil
      intro hx
      exact hFne (List.map_eq_nil_iff.mp hx)
    refine ⟨hne3, by rw [hcat]; exact List.length_take_le 3 _, hnodup,
      fun c hc => Or.inl (hmem c hc), ?_⟩
    constructor
    · intro habs
      exfalso
      have : "other" ∈ CATEGORY_KEYWORDS.map Prod.fst := by
        apply hmem
        rw [habs]
        simp
      revert this
      decide
    · intro hany
      exact absurd ((scores_nil_iff content).mpr hany) hnil
